import Mathlib

/-!
DesktopWindow: keyboard / mouse state table, rate timers and input bindings.

A shallow embedding of `src/window.cpp`.

* C `int` arithmetic in `keysym` is modelled on `Int` with an explicit
  two's-complement wrap (`wrap32`) after every operation.
* The fixed-size arrays `keyMap`, `mouseMap`, `timePrev`, `timePeriod` are lists;
  the `int*` stored in an `InputBind` is a `Handle` (which array, which index).
* The header `window.hpp` is not part of the sources, so the array sizes
  `WINDOW_KEYCODES`, `WINDOW_MOUSECODES`, `WINDOW_RATES` are parameters (`Config`).
* `float` arithmetic of the mouse fields is a parameter (`FloatOps`); nothing is
  proved about its values.
* Calls into the windowing library (`SDL_PollEvent`, `clock`, `glViewport`) are
  inputs: the polled events are a list, the clock reading is an argument.
* Clock readings and the cells of `timePrev` / `timePeriod` are exact integers
  (their declared types are in the header; no overflow of `clock_t` is modelled).
* A method of `InputBind` returns `none` where the C++ code dereferences a null
  pointer (unbound id) or a pointer outside its array.
-/

namespace DesktopWindow

/-! ## Machine integers -/

/-- Smallest value of a 32-bit signed `int`. -/
def INT_MIN : Int := -2147483648

/-- Largest value of a 32-bit signed `int`. -/
def INT_MAX : Int := 2147483647

/-- Membership in the range of a 32-bit signed `int`. -/
def Int32 (x : Int) : Prop := INT_MIN ≤ x ∧ x ≤ INT_MAX

instance (x : Int) : Decidable (Int32 x) := by
  unfold Int32; infer_instance

/-- Two's-complement reduction of an exact result to 32 bits. -/
def wrap32 (x : Int) : Int := (x + 2147483648) % 4294967296 - 2147483648

/-! ## Constants of the missing header -/

/-- Array sizes declared in `window.hpp`. -/
structure Config where
  WINDOW_KEYCODES : Nat
  WINDOW_MOUSECODES : Nat
  WINDOW_RATES : Nat
  deriving DecidableEq

/-! ## `keysym` (window.cpp lines 6-11) -/

/-- Value of the local `key` after line 8: `if(key >= 128) key -= 0x40000039;`. -/
def keysymKey (code : Int) : Int :=
  if code ≥ 128 then wrap32 (code - 0x40000039) else code

/-- Normalised key index: `if(key < 0) return WINDOW_KEYCODES; return key + 128;`. -/
def keysym (WINDOW_KEYCODES : Nat) (code : Int) : Int :=
  let key := keysymKey code
  if key < 0 then (WINDOW_KEYCODES : Int) else wrap32 (key + 128)

/-! ## Enumerations used by window.cpp -/

/-- Status codes stored by `setErrorStatus`. -/
inductive ErrorWindow
  | ErrorNone
  | ErrorSDLInit
  | ErrorSDLWindow
  | ErrorSDLContext
  | ErrorGLEWInit
  | ErrorMouseDown
  | ErrorMouseUp
  | ErrorKeyDown
  | ErrorKeyUp
  deriving DecidableEq

/-- Payload stored next to the status code: the member that was initialised. -/
inductive ErrorContext
  | value (v : Int)
  | glValue (v : Nat)
  deriving DecidableEq

/-- Results of `Window::get`. -/
inductive WindowState
  | WindowDefault
  | WindowQuit
  | WindowError
  | WindowEnter
  | WindowLeave
  | WindowFocus
  | WindowUnfocus
  | WindowResizing
  | WindowResized
  deriving DecidableEq

/-- Sub-kinds of `SDL_WINDOWEVENT` that `Window::get` distinguishes. -/
inductive WindowEvent
  | ENTER
  | LEAVE
  | FOCUS_GAINED
  | FOCUS_LOST
  | SIZE_CHANGED (data1 data2 : Int)
  | RESIZED (data1 data2 : Int)
  | other
  deriving DecidableEq

/-- One polled `SDL_Event`, with the fields `Window::get` reads. `button` is a
`Uint8`, `sym` an `SDL_Keycode` (32-bit signed). -/
inductive Event
  | QUIT
  | MOUSEBUTTONDOWN (button : Nat)
  | MOUSEBUTTONUP (button : Nat)
  | KEYDOWN (sym : Int)
  | KEYUP (sym : Int)
  | MOUSEMOTION (x y xrel yrel : Int)
  | WINDOWEVENT (e : WindowEvent)
  | other
  deriving DecidableEq

/-- Well-formed event: every field is in the range of its C type. -/
def Event.wf : Event → Prop
  | .MOUSEBUTTONDOWN b => b < 256
  | .MOUSEBUTTONUP b => b < 256
  | .KEYDOWN sym => Int32 sym
  | .KEYUP sym => Int32 sym
  | _ => True

/-! ## `float` arithmetic -/

/-- The `float` operations used on the mouse fields. -/
structure FloatOps (F : Type) where
  ofInt : Int → F
  add : F → F → F
  sub : F → F → F
  mul : F → F → F
  div : F → F → F
  neg : F → F

/-- Exact rational arithmetic, used to evaluate the model on examples. -/
def FloatOps.exact : FloatOps Rat where
  ofInt := fun n => (n : Rat)
  add := fun a b => a + b
  sub := fun a b => a - b
  mul := fun a b => a * b
  div := fun a b => a / b
  neg := fun a => -a

/-! ## The `Window` object -/

/-- Data members of `Window` that window.cpp reads or writes (the library
handles `window` and `context` are left out). -/
structure Window (F : Type) where
  width : Int
  height : Int
  errorStatus : ErrorWindow
  errorContext : ErrorContext
  timeStart : Int
  timePrev : List Int
  timePeriod : List Int
  keyMap : List Int
  mouseMap : List Int
  mousePosition : F × F
  mouseMotion : F × F

variable {F : Type}

/-- The arrays have their declared sizes. -/
def Window.wf (cfg : Config) (w : Window F) : Prop :=
  w.keyMap.length = cfg.WINDOW_KEYCODES ∧ w.mouseMap.length = cfg.WINDOW_MOUSECODES ∧
  w.timePrev.length = cfg.WINDOW_RATES ∧ w.timePeriod.length = cfg.WINDOW_RATES

/-- Body of `Window::setErrorStatus` (lines 217-220). -/
def setErrorStatus (w : Window F) (code : ErrorWindow) (data : ErrorContext) : Window F :=
  { w with errorStatus := code, errorContext := data }

/-- The loop `for(int i = 0; i < n; i++) a[i] = 0;` of lines 65-66. -/
def zeroFill (n : Nat) (a : List Int) : List Int :=
  (List.range n).foldl (fun acc i => acc.set i 0) a

/-- State left by a run of the constructor (lines 16-72) in which every library
call succeeds. `mem` is the object before construction (indeterminate
contents), `dflt` the default argument of `setErrorStatus` declared in the
header, `period0` and `period1` the values stored by lines 61-62. -/
def Window.init (cfg : Config) (fl : FloatOps F) (mem : Window F) (dflt : ErrorContext)
    (w h : Int) (period0 period1 : Int) : Window F :=
  let m := setErrorStatus mem .ErrorNone dflt
  { m with
    width := w
    height := h
    timeStart := 0
    timePrev := (m.timePrev.set 1 0).set 0 0
    timePeriod := (m.timePeriod.set 0 period0).set 1 period1
    keyMap := zeroFill cfg.WINDOW_KEYCODES m.keyMap
    mouseMap := zeroFill cfg.WINDOW_MOUSECODES m.mouseMap
    mousePosition := (fl.ofInt 0, fl.ofInt 0)
    mouseMotion := (fl.ofInt 0, fl.ofInt 0) }

/-! ## Rate timers (lines 80-93) -/

/-- The loop `for(int i = 0; i < n; i++) timePrev[i] = timeStart - timePeriod[i];`
of line 82. -/
def timerLoop (n : Nat) (w : Window F) : Window F :=
  (List.range n).foldl
    (fun acc i => { acc with timePrev := acc.timePrev.set i (acc.timeStart - acc.timePeriod.getD i 0) })
    w

/-- Body of `Window::timer`; `now` is the value returned by `clock()`. Clock
values are exact integers: `clock_t` arithmetic is taken not to overflow. -/
def timer (cfg : Config) (w : Window F) (now : Int) : Window F :=
  timerLoop cfg.WINDOW_RATES { w with timeStart := now }

/-- Body of `Window::cap`; `now` is the value returned by `clock()`. -/
def cap (w : Window F) (type : Nat) (now : Int) : Bool × Window F :=
  if now - w.timePrev.getD type 0 > w.timePeriod.getD type 0 then
    (true, { w with timePrev := w.timePrev.set type (w.timePrev.getD type 0 + w.timePeriod.getD type 0) })
  else
    (false, w)

/-- A sequence of `cap` calls, each given as (rate, clock reading); the log
records the rate and the result of every call. -/
def capRun (w : Window F) : List (Nat × Int) → Window F × List (Nat × Bool)
  | [] => (w, [])
  | (type, now) :: rest =>
    let r := cap w type now
    let tail := capRun r.2 rest
    (tail.1, (type, r.1) :: tail.2)

/-! ## Event polling (lines 95-189) -/

/-- One iteration of the polling loop: the `switch` on the event type. The
second component is `some s` when the case executes `return s` and `none`
when it ends in `break`. -/
def handleEvent (cfg : Config) (fl : FloatOps F) (w : Window F) : Event → Window F × Option WindowState
  | .QUIT => (w, some .WindowQuit)
  | .MOUSEBUTTONDOWN button =>
    if button < cfg.WINDOW_MOUSECODES then
      ({ w with mouseMap := w.mouseMap.set button (if w.mouseMap.getD button 0 = 0 then 1 else -1) }, none)
    else
      (setErrorStatus w .ErrorMouseDown (.value button), some .WindowError)
  | .MOUSEBUTTONUP button =>
    if button < cfg.WINDOW_MOUSECODES then
      ({ w with mouseMap := w.mouseMap.set button 0 }, none)
    else
      (setErrorStatus w .ErrorMouseUp (.value button), some .WindowError)
  | .KEYDOWN sym =>
    let key := keysym cfg.WINDOW_KEYCODES sym
    if key < cfg.WINDOW_KEYCODES then
      ({ w with keyMap := w.keyMap.set key.toNat (if w.keyMap.getD key.toNat 0 = 0 then 1 else -1) }, none)
    else
      (setErrorStatus w .ErrorKeyDown (.value key), some .WindowError)
  | .KEYUP sym =>
    let key := keysym cfg.WINDOW_KEYCODES sym
    if key < cfg.WINDOW_KEYCODES then
      ({ w with keyMap := w.keyMap.set key.toNat 0 }, none)
    else
      (setErrorStatus w .ErrorKeyUp (.value key), some .WindowError)
  | .MOUSEMOTION x y xrel yrel =>
    ({ w with
       mousePosition :=
         (fl.sub (fl.div (fl.mul (fl.ofInt 2) (fl.ofInt x)) (fl.ofInt w.width)) (fl.ofInt 1),
          fl.neg (fl.sub (fl.div (fl.mul (fl.ofInt 2) (fl.ofInt y)) (fl.ofInt w.height)) (fl.ofInt 1)))
       mouseMotion :=
         (fl.add w.mouseMotion.1 (fl.div (fl.mul (fl.ofInt 2) (fl.ofInt xrel)) (fl.ofInt w.width)),
          fl.sub w.mouseMotion.2 (fl.div (fl.mul (fl.ofInt 2) (fl.ofInt yrel)) (fl.ofInt w.height))) },
     none)
  | .WINDOWEVENT .ENTER => (w, some .WindowEnter)
  | .WINDOWEVENT .LEAVE => (w, some .WindowLeave)
  | .WINDOWEVENT .FOCUS_GAINED => (w, some .WindowFocus)
  | .WINDOWEVENT .FOCUS_LOST => (w, some .WindowUnfocus)
  | .WINDOWEVENT (.SIZE_CHANGED data1 data2) =>
    ({ w with width := data1, height := data2 }, some .WindowResizing)
  | .WINDOWEVENT (.RESIZED data1 data2) =>
    ({ w with width := data1, height := data2 }, some .WindowResized)
  | .WINDOWEVENT .other => (w, none)
  | .other => (w, none)

/-- Body of `Window::get` on the queue of pending events: the result, the
window afterwards and the events left in the queue. -/
def get (cfg : Config) (fl : FloatOps F) (w : Window F) : List Event → WindowState × Window F × List Event
  | [] => (.WindowDefault, w, [])
  | e :: rest =>
    match handleEvent cfg fl w e with
    | (w1, some s) => (s, w1, rest)
    | (w1, none) => get cfg fl w1 rest

/-- Body of `Window::getErrorStatus` for the input errors (lines 237-248);
`none` for the cases that call into the library or read the other member. -/
def getErrorStatus (w : Window F) : Option String :=
  match w.errorStatus, w.errorContext with
  | .ErrorMouseDown, .value v => some ("Input error: MOUSEDOWN code out of bounds: " ++ toString v)
  | .ErrorMouseUp, .value v => some ("Input error: MOUSEUP code out of bounds: " ++ toString v)
  | .ErrorKeyDown, .value v => some ("Input error: KEYDOWN code out of bounds: " ++ toString v)
  | .ErrorKeyUp, .value v => some ("Input error: KEYUP code out of bounds: " ++ toString v)
  | .ErrorNone, _ => some "No error"
  | _, _ => none

/-! ## Input bindings (lines 279-345) -/

/-- The `int*` kept in a binding: a cell of `keyMap` or of `mouseMap`. -/
inductive Handle
  | key (i : Nat)
  | button (i : Nat)
  deriving DecidableEq

/-- Reading through a handle; `none` when it points outside its array. -/
def Window.load (w : Window F) : Handle → Option Int
  | .key i => w.keyMap[i]?
  | .button i => w.mouseMap[i]?

/-- Writing through a handle. -/
def Window.store (w : Window F) (h : Handle) (v : Int) : Window F :=
  match h with
  | .key i => { w with keyMap := w.keyMap.set i v }
  | .button i => { w with mouseMap := w.mouseMap.set i v }

/-- Address taken by `Window::getMapHandle(WindowKey)` (lines 279-281). -/
def getMapHandleKey (cfg : Config) (code : Int) : Handle :=
  .key (keysym cfg.WINDOW_KEYCODES code).toNat

/-- Address taken by `Window::getMapHandle(WindowButton)` (lines 283-285). -/
def getMapHandleButton (code : Nat) : Handle :=
  .button code

/-- Data members of `InputBind`: the `std::map<int,int*>` as a list sorted by
id without repeated ids, and the activation flag. -/
structure InputBind where
  bindings : List (Int × Handle)
  isActive : Bool
  deriving DecidableEq

/-- Constructor of `InputBind` (line 297). -/
def InputBind.new : InputBind :=
  { bindings := [], isActive := false }

/-- Insertion `std::map::insert`: keeps the order by id and leaves an id that
is already present untouched. -/
def mapInsert (id : Int) (h : Handle) : List (Int × Handle) → List (Int × Handle)
  | [] => [(id, h)]
  | (k, v) :: rest =>
    if id < k then (id, h) :: (k, v) :: rest
    else if id = k then (k, v) :: rest
    else (k, v) :: mapInsert id h rest

/-- Lookup of an id among the bindings. -/
def InputBind.find (b : InputBind) (id : Int) : Option Handle :=
  b.bindings.lookup id

/-- Body of `InputBind::bind` (lines 299-302), given the address. -/
def InputBind.bind (b : InputBind) (id : Int) (h : Handle) : InputBind :=
  { b with bindings := mapInsert id h b.bindings }

/-- Body of `InputBind::bindAll` for key codes (lines 304-311). -/
def InputBind.bindAllKeys (cfg : Config) (b : InputBind) (l : List (Int × Int)) : InputBind :=
  l.foldl (fun acc p => acc.bind p.1 (getMapHandleKey cfg p.2)) b

/-- Body of `InputBind::bindAll` for mouse buttons (lines 304-315). -/
def InputBind.bindAllButtons (b : InputBind) (l : List (Int × Nat)) : InputBind :=
  l.foldl (fun acc p => acc.bind p.1 (getMapHandleButton p.2)) b

/-- Body of `InputBind::setActive` (lines 317-319). -/
def InputBind.setActive (b : InputBind) (a : Bool) : InputBind :=
  { b with isActive := a }

/-- Conversion of the `bool` flag in `x * isActive`. -/
def boolToInt (a : Bool) : Int := if a then 1 else 0

/-- Body of `InputBind::getInactivePress` (lines 321-327). `none` when
`*bindings[id]` dereferences a null pointer (unbound id) or a pointer outside
its array. -/
def getInactivePress (b : InputBind) (w : Window F) (id : Int) : Option (Int × Window F) :=
  match b.find id with
  | none => none
  | some h =>
    match w.load h with
    | none => none
    | some v => if v = 1 then some (1, w.store h (-1)) else some (0, w)

/-- Body of `InputBind::getPress` (lines 329-335). -/
def getPress (b : InputBind) (w : Window F) (id : Int) : Option (Int × Window F) :=
  match b.find id with
  | none => none
  | some h =>
    match w.load h with
    | none => none
    | some v => if v = 1 then some (1 * boolToInt b.isActive, w.store h (-1)) else some (0, w)

/-- Body of `InputBind::getHold` (lines 337-339). -/
def getHold (b : InputBind) (w : Window F) (id : Int) : Option (Int × Window F) :=
  match b.find id with
  | none => none
  | some h =>
    match w.load h with
    | none => none
    | some v => some ((v.natAbs : Int) * boolToInt b.isActive, w)

/-- The loop of `InputBind::flush` over the bindings in map order. -/
def flushList : List (Int × Handle) → Window F → Option (Window F)
  | [], w => some w
  | (_, h) :: rest, w =>
    match w.load h with
    | none => none
    | some v => flushList rest (if v = 1 then w.store h (-1) else w)

/-- Body of `InputBind::flush` (lines 341-345). -/
def flush (b : InputBind) (w : Window F) : Option (Window F) :=
  flushList b.bindings w

/-! ## Call sequences -/

/-- A window together with one `InputBind` bound to it. -/
structure Sys (F : Type) where
  win : Window F
  bind : InputBind

/-- One call made by the application: `Window::get` with the events it polls,
or a method of `InputBind`. -/
inductive Op
  | get (q : List Event)
  | getPress (id : Int)
  | getInactivePress (id : Int)
  | getHold (id : Int)
  | flush
  | setActive (a : Bool)
  deriving DecidableEq

/-- What a call returns. -/
inductive Out
  | state (s : WindowState)
  | int (v : Int)
  | unit
  deriving DecidableEq

/-- Effect of one call; `none` when the call dereferences an invalid pointer. -/
def step (cfg : Config) (fl : FloatOps F) (s : Sys F) : Op → Option (Sys F × Out)
  | .get q =>
    let r := get cfg fl s.win q
    some ({ s with win := r.2.1 }, .state r.1)
  | .getPress id => (getPress s.bind s.win id).map (fun r => ({ s with win := r.2 }, .int r.1))
  | .getInactivePress id =>
    (getInactivePress s.bind s.win id).map (fun r => ({ s with win := r.2 }, .int r.1))
  | .getHold id => (getHold s.bind s.win id).map (fun r => ({ s with win := r.2 }, .int r.1))
  | .flush => (flush s.bind s.win).map (fun w => ({ s with win := w }, .unit))
  | .setActive a => some ({ s with bind := s.bind.setActive a }, .unit)

/-- A sequence of calls, with the log of each call and what it returned. -/
def run (cfg : Config) (fl : FloatOps F) (s : Sys F) : List Op → Option (Sys F × List (Op × Out))
  | [] => some (s, [])
  | op :: rest =>
    match step cfg fl s op with
    | none => none
    | some (s1, out) =>
      match run cfg fl s1 rest with
      | none => none
      | some (s2, log) => some (s2, (op, out) :: log)

/-! ## Predicates used in the statements -/

/-- The three signal values: held, up, freshly pressed. -/
def TriState (v : Int) : Prop := v = -1 ∨ v = 0 ∨ v = 1

/-- Every cell of both tables holds one of the three signal values. -/
def Window.triState (w : Window F) : Prop :=
  (∀ v ∈ w.keyMap, TriState v) ∧ (∀ v ∈ w.mouseMap, TriState v)

/-- The event is a key-up or button-up that passes the range guard and
addresses the cell `h`. -/
def Event.releases (cfg : Config) (h : Handle) : Event → Prop
  | .KEYUP sym =>
    keysym cfg.WINDOW_KEYCODES sym < cfg.WINDOW_KEYCODES ∧
      h = .key (keysym cfg.WINDOW_KEYCODES sym).toNat
  | .MOUSEBUTTONUP button => button < cfg.WINDOW_MOUSECODES ∧ h = .button button
  | _ => False

/-- The call polls an event that releases the cell `h`. -/
def Op.releases (cfg : Config) (h : Handle) : Op → Prop
  | .get q => ∃ e ∈ q, e.releases cfg h
  | _ => False

/-- The logged call is a `getPress` or `getInactivePress` on an id bound to
the cell `h` that returned 1. -/
def reported (b : InputBind) (h : Handle) (c : Op × Out) : Bool :=
  match c.1 with
  | .getPress id => decide (b.find id = some h ∧ c.2 = .int 1)
  | .getInactivePress id => decide (b.find id = some h ∧ c.2 = .int 1)
  | _ => false

/-- The event is a key-down or button-down that passes the range guard and
addresses the cell `h`. -/
def Event.presses (cfg : Config) (h : Handle) : Event → Prop
  | .KEYDOWN sym =>
    keysym cfg.WINDOW_KEYCODES sym < cfg.WINDOW_KEYCODES ∧
      h = .key (keysym cfg.WINDOW_KEYCODES sym).toNat
  | .MOUSEBUTTONDOWN button => button < cfg.WINDOW_MOUSECODES ∧ h = .button button
  | _ => False

/-- The handle points into its array. -/
def Handle.valid (w : Window F) : Handle → Prop
  | .key i => i < w.keyMap.length
  | .button i => i < w.mouseMap.length

/-- Every binding points into its array. -/
def InputBind.valid (b : InputBind) (w : Window F) : Prop :=
  ∀ p ∈ b.bindings, p.2.valid w

/-- The call names a bound id (a call without an id always qualifies). -/
def Op.bound (b : InputBind) : Op → Prop
  | .getPress id => ∃ h, b.find id = some h
  | .getInactivePress id => ∃ h, b.find id = some h
  | .getHold id => ∃ h, b.find id = some h
  | _ => True

/-- Both tables of `w1` have the sizes of those of `w`. -/
def Window.sameSize (w w1 : Window F) : Prop :=
  w1.keyMap.length = w.keyMap.length ∧ w1.mouseMap.length = w.mouseMap.length

/-- The index used in `keyMap[key]` for the key code `sym`. -/
def keyIndex (cfg : Config) (sym : Int) : Nat :=
  (keysym cfg.WINDOW_KEYCODES sym).toNat

/-- One loop iteration of `Window::get` on `e` ends in `return WindowError`
with status `code` and context value `v` recorded, every cell of both tables
as before, and the remaining events left in the queue. -/
def ReportsError (cfg : Config) (fl : FloatOps F) (w : Window F) (e : Event)
    (code : ErrorWindow) (v : Int) (msg : String) : Prop :=
  (handleEvent cfg fl w e).2 = some .WindowError ∧
  (handleEvent cfg fl w e).1.errorStatus = code ∧
  (handleEvent cfg fl w e).1.errorContext = .value v ∧
  (handleEvent cfg fl w e).1.keyMap = w.keyMap ∧
  (handleEvent cfg fl w e).1.mouseMap = w.mouseMap ∧
  getErrorStatus (handleEvent cfg fl w e).1 = some (msg ++ toString v) ∧
  ∀ q : List Event, get cfg fl w (e :: q) = (.WindowError, (handleEvent cfg fl w e).1, q)

/-! ## A concrete window, used to evaluate the model -/

/-- Sizes used in the examples. -/
def exampleConfig : Config :=
  { WINDOW_KEYCODES := 256, WINDOW_MOUSECODES := 8, WINDOW_RATES := 2 }

/-- Object memory before construction: every integer holds 7. -/
def exampleMemory : Window Rat :=
  { width := 7, height := 7, errorStatus := .ErrorSDLInit, errorContext := .value 7,
    timeStart := 7, timePrev := List.replicate 2 7, timePeriod := List.replicate 2 7,
    keyMap := List.replicate 256 7, mouseMap := List.replicate 8 7,
    mousePosition := (7, 7), mouseMotion := (7, 7) }

/-- A 640 x 480 window with rate periods 16666 and 8333 clock ticks. -/
def exampleWindow : Window Rat :=
  Window.init exampleConfig FloatOps.exact exampleMemory (.value 0) 640 480 16666 8333

/-- Bindings of id 1 to the key `a` (code 97), id 3 to the space key (code 32)
and id 2 to mouse button 1. -/
def exampleBind : InputBind :=
  (InputBind.new.bindAllKeys exampleConfig [(1, 97), (3, 32)]).bindAllButtons [(2, 1)]

/-- The example window with the example bindings. -/
def exampleSys : Sys Rat :=
  { win := exampleWindow, bind := exampleBind }

/-- The example window after the key `a` went down. -/
def examplePressed : Window Rat :=
  (get exampleConfig FloatOps.exact exampleWindow [.KEYDOWN 97]).2.1

/-- The example window with the example bindings activated. -/
def exampleActive : Sys Rat :=
  { win := exampleWindow, bind := exampleBind.setActive true }

/-- Calls of `cap`: rate 0 at 1001, rate 1 at 1002, rate 0 at 20000, 40000, 60000. -/
def exampleCalls : List (Nat × Int) :=
  [(0, 1001), (1, 1002), (0, 20000), (0, 40000), (0, 60000)]

/-- Calls that follow a press of `a`: queries, a repeated down event, a flush. -/
def exampleQueries : List Op :=
  [.getHold 1, .getPress 1, .getInactivePress 1, .get [.KEYDOWN 97, .KEYUP 32],
   .getPress 1, .flush, .getInactivePress 1]

/-- A call sequence: `a` and button 1 go down, the press of `a` is queried twice,
the rest is flushed, `a` goes up, then the binding is activated and queried. -/
def exampleOps : List Op :=
  [.get [.KEYDOWN 97, .MOUSEBUTTONDOWN 1, .MOUSEMOTION 10 20 1 2], .getPress 1, .getPress 1,
   .flush, .get [.KEYUP 97, .WINDOWEVENT .ENTER], .getHold 2, .setActive true,
   .getInactivePress 2, .getHold 2]

/-! ## Lemmas on `keysym` -/

theorem keysym_exact (N : Nat) (code : Int) (h : Int32 code) :
    keysym N code =
      if 128 ≤ code then (if code < 0x40000039 then (N : Int) else code - 0x40000039 + 128)
      else if code < 0 then (N : Int) else code + 128 := by
  unfold Int32 INT_MIN INT_MAX at h
  simp only [keysym, keysymKey, wrap32]
  split_ifs <;> omega

theorem keysym_ge (N : Nat) (code : Int) (h : Int32 code) :
    keysym N code = N ∨ 128 ≤ keysym N code := by
  rw [keysym_exact N code h]
  split_ifs <;> omega

theorem keysym_guard (N : Nat) (code : Int) (h : Int32 code) (hg : keysym N code < N) :
    128 ≤ keysym N code ∧ 128 ≤ (keysym N code).toNat ∧ (keysym N code).toNat < N := by
  rcases keysym_ge N code h with h1 | h1 <;> omega

theorem keysym_injective_on_side (N : Nat) (a b : Int) (ha : Int32 a) (hb : Int32 b)
    (hside : (a < 128 ∧ b < 128) ∨ (128 ≤ a ∧ 128 ≤ b))
    (hacc : keysym N a < N) (heq : keysym N a = keysym N b) : a = b := by
  rw [keysym_exact N a ha] at hacc heq
  rw [keysym_exact N b hb] at heq
  unfold Int32 INT_MIN INT_MAX at ha hb
  split_ifs at hacc heq <;> omega

/-! ## Lemmas on one loop iteration -/

theorem handleEvent_keyMap_low (cfg : Config) (fl : FloatOps F) (w : Window F) (e : Event)
    (he : e.wf) (i : Nat) (hi : i < 128) :
    (handleEvent cfg fl w e).1.keyMap[i]? = w.keyMap[i]? := by
  unfold handleEvent
  split <;> simp only [setErrorStatus] <;> try split_ifs
  all_goals first
    | rfl
    | (have hk := keysym_guard _ _ he (by assumption)
       exact List.getElem?_set_ne (by omega))

theorem get_preserves (cfg : Config) (fl : FloatOps F) (P : Window F → Prop) (q : List Event)
    (hstep : ∀ w e, e ∈ q → P w → P (handleEvent cfg fl w e).1) (w : Window F) (hw : P w) :
    P (get cfg fl w q).2.1 := by
  induction q generalizing w with
  | nil => simpa [get] using hw
  | cons e rest ih =>
    have h1 := hstep w e (List.mem_cons_self _ _) hw
    have ih1 := ih (fun w1 e1 he1 => hstep w1 e1 (List.mem_cons_of_mem _ he1))
    unfold get
    split
    · next w1 s heq => rw [heq] at h1; exact h1
    · next w1 heq => rw [heq] at h1; exact ih1 w1 h1

/-! ## Lemmas on the tables -/

theorem set_triState (l : List Int) (i : Nat) (x : Int) (hx : TriState x)
    (hl : ∀ v ∈ l, TriState v) : ∀ v ∈ l.set i x, TriState v := by
  intro v hv
  rcases List.mem_or_eq_of_mem_set hv with h | h
  · exact hl v h
  · rw [h]; exact hx

theorem triState_press (c : Prop) [Decidable c] : TriState (if c then 1 else -1) := by
  unfold TriState
  split_ifs <;> simp

theorem getD_of_getElem? (l : List Int) (i : Nat) (v : Int) (h : l[i]? = some v) :
    l.getD i 0 = v := by
  rw [List.getD_eq_getElem?_getD, h]; rfl

theorem set_down_held (l : List Int) (k i : Nat) (h : l[i]? = some (-1)) :
    (l.set k (if l.getD k 0 = 0 then 1 else -1))[i]? = some (-1) := by
  rw [List.getElem?_set]
  by_cases hk : k = i
  · subst hk
    have hlt : k < l.length := (List.getElem?_eq_some.mp h).1
    rw [getD_of_getElem? l k (-1) h]
    simp [hlt]
  · simp [hk, h]

theorem set_down_fresh (l : List Int) (k i : Nat) (h : l[i]? = some 1 ∨ l[i]? = some (-1)) :
    (l.set k (if l.getD k 0 = 0 then 1 else -1))[i]? = some 1 ∨
    (l.set k (if l.getD k 0 = 0 then 1 else -1))[i]? = some (-1) := by
  rw [List.getElem?_set]
  by_cases hk : k = i
  · subst hk
    rcases h with h | h
    · have hlt : k < l.length := (List.getElem?_eq_some.mp h).1
      rw [getD_of_getElem? l k 1 h]
      simp [hlt]
    · have hlt : k < l.length := (List.getElem?_eq_some.mp h).1
      rw [getD_of_getElem? l k (-1) h]
      simp [hlt]
  · simpa [hk] using h

theorem zeroFill_succ (n : Nat) (a : List Int) : zeroFill (n + 1) a = (zeroFill n a).set n 0 := by
  simp [zeroFill, List.range_succ, List.foldl_append]

theorem zeroFill_length (n : Nat) (a : List Int) : (zeroFill n a).length = a.length := by
  induction n with
  | zero => simp [zeroFill]
  | succ n ih => rw [zeroFill_succ, List.length_set, ih]

theorem zeroFill_getElem? (n : Nat) (a : List Int) (i : Nat) (hi : i < n) (hlen : i < a.length) :
    (zeroFill n a)[i]? = some 0 := by
  induction n with
  | zero => omega
  | succ n ih =>
    rw [zeroFill_succ, List.getElem?_set]
    by_cases h : n = i
    · subst h
      simp [zeroFill_length, hlen]
    · simp only [h, if_false]
      exact ih (by omega)

theorem zeroFill_all (n : Nat) (a : List Int) (hlen : a.length = n) :
    ∀ v ∈ zeroFill n a, v = 0 := by
  intro v hv
  obtain ⟨i, hi, hget⟩ := List.getElem_of_mem hv
  have hi2 : i < a.length := by rw [← zeroFill_length n a]; exact hi
  have h0 := zeroFill_getElem? n a i (by omega) hi2
  rw [List.getElem?_eq_getElem hi] at h0
  rw [← hget]
  exact Option.some.inj h0

theorem load_store_same (w : Window F) (h : Handle) (v x : Int) (hl : w.load h = some v) :
    (w.store h x).load h = some x := by
  cases h with
  | key i =>
    have hlt : i < w.keyMap.length := (List.getElem?_eq_some.mp hl).1
    exact List.getElem?_set_self hlt
  | button i =>
    have hlt : i < w.mouseMap.length := (List.getElem?_eq_some.mp hl).1
    exact List.getElem?_set_self hlt

theorem load_store_ne (w : Window F) (h h1 : Handle) (x : Int) (hne : h1 ≠ h) :
    (w.store h1 x).load h = w.load h := by
  cases h <;> cases h1 <;> simp only [Window.load, Window.store]
  · exact List.getElem?_set_ne (fun e => hne (by rw [e]))
  · exact List.getElem?_set_ne (fun e => hne (by rw [e]))

theorem store_triState (w : Window F) (h : Handle) (x : Int) (hx : TriState x)
    (hw : w.triState) : (w.store h x).triState := by
  cases h with
  | key i => exact ⟨set_triState _ _ _ hx hw.1, hw.2⟩
  | button i => exact ⟨hw.1, set_triState _ _ _ hx hw.2⟩

theorem triState_held : TriState (-1) := Or.inl rfl

/-- Effect of `if(*p == 1) *p = -1;` on another watched cell that is held. -/
theorem consume_held (w : Window F) (h h1 : Handle) (v : Int) (hl1 : w.load h1 = some v)
    (hl : w.load h = some (-1)) :
    (if v = 1 then w.store h1 (-1) else w).load h = some (-1) := by
  split_ifs with hv
  · by_cases hh : h1 = h
    · subst hh; exact load_store_same w h1 v (-1) hl1
    · rw [load_store_ne w h h1 (-1) hh]; exact hl
  · exact hl

theorem consume_fresh (w : Window F) (h h1 : Handle) (v : Int) (hl1 : w.load h1 = some v)
    (hl : w.load h = some 1) :
    ((if v = 1 then w.store h1 (-1) else w).load h = some 1 ∧ h1 ≠ h) ∨
    (if v = 1 then w.store h1 (-1) else w).load h = some (-1) := by
  by_cases hh : h1 = h
  · subst hh
    have hv : v = 1 := by rw [hl1] at hl; exact Option.some.inj hl
    right
    rw [if_pos hv]
    exact load_store_same w h1 v (-1) hl1
  · left
    refine ⟨?_, hh⟩
    split_ifs
    · rw [load_store_ne w h h1 (-1) hh]; exact hl
    · exact hl

/-! ## Claims on `keysym` and on single events -/

/-- C9: for every 32-bit key code the two arithmetic steps of `keysym` stay in
the range of `int`, the result is `WINDOW_KEYCODES` or at least 128, a result
that passes the guard of `Window::get` is an index between 128 and
`WINDOW_KEYCODES`, and no call of `Window::get` changes a cell 0..127 of
`keyMap`. -/
theorem keysym_index_safety (cfg : Config) :
    (∀ sym : Int, Int32 sym →
      (128 ≤ sym → Int32 (sym - 0x40000039)) ∧
      (0 ≤ keysymKey sym → Int32 (keysymKey sym + 128)) ∧
      (keysym cfg.WINDOW_KEYCODES sym = cfg.WINDOW_KEYCODES ∨
        128 ≤ keysym cfg.WINDOW_KEYCODES sym) ∧
      (keysym cfg.WINDOW_KEYCODES sym < cfg.WINDOW_KEYCODES →
        (0 : Int) ≤ 128 ∧ 128 ≤ keysym cfg.WINDOW_KEYCODES sym ∧
        128 ≤ keyIndex cfg sym ∧ keyIndex cfg sym < cfg.WINDOW_KEYCODES)) ∧
    (∀ (fl : FloatOps F) (w : Window F) (q : List Event), (∀ e ∈ q, e.wf) →
      ∀ i : Nat, i < 128 → (get cfg fl w q).2.1.keyMap[i]? = w.keyMap[i]?) := by
  refine ⟨fun sym hsym => ⟨?_, ?_, keysym_ge _ _ hsym, fun hg => ?_⟩, ?_⟩
  · intro h
    unfold Int32 INT_MIN INT_MAX at *
    omega
  · unfold Int32 INT_MIN INT_MAX at *
    simp only [keysymKey, wrap32]
    split_ifs <;> intro h <;> omega
  · have := keysym_guard _ _ hsym hg
    exact ⟨by norm_num, this.1, this.2.1, this.2.2⟩
  · intro fl w q hq i hi
    exact get_preserves cfg fl (fun w1 => w1.keyMap[i]? = w.keyMap[i]?) q
      (fun w1 e he h1 => (handleEvent_keyMap_low cfg fl w1 e (hq e he) i hi).trans h1) w rfl

/-- C7 (fails on the code): the distinct key codes 32 (space) and 0x40000059
(keypad 1) are both accepted once `WINDOW_KEYCODES` exceeds 160 and share the
cell 160, so that releasing one resets the press of the other. -/
theorem keysym_collision (cfg : Config) (hN : 160 < cfg.WINDOW_KEYCODES) :
    Int32 32 ∧ Int32 0x40000059 ∧ (32 : Int) ≠ 0x40000059 ∧
    keysym cfg.WINDOW_KEYCODES 32 < cfg.WINDOW_KEYCODES ∧
    keysym cfg.WINDOW_KEYCODES 0x40000059 < cfg.WINDOW_KEYCODES ∧
    keysym cfg.WINDOW_KEYCODES 32 = 160 ∧ keysym cfg.WINDOW_KEYCODES 0x40000059 = 160 ∧
    ∀ (fl : FloatOps F) (w : Window F), w.wf cfg →
      (handleEvent cfg fl w (.KEYDOWN 32)).1.keyMap[160]? ≠ some 0 ∧
      (handleEvent cfg fl (handleEvent cfg fl w (.KEYDOWN 32)).1 (.KEYUP 0x40000059)).1.keyMap[160]?
        = some 0 := by
  have h1 : keysym cfg.WINDOW_KEYCODES 32 = 160 := by
    rw [keysym_exact _ _ (by decide)]; norm_num
  have h2 : keysym cfg.WINDOW_KEYCODES 0x40000059 = 160 := by
    rw [keysym_exact _ _ (by decide)]; norm_num
  refine ⟨by decide, by decide, by norm_num, by omega, by omega, h1, h2, ?_⟩
  intro fl w hwf
  have hlen : 160 < w.keyMap.length := by rw [hwf.1]; exact hN
  have hlt : (160 : Int) < cfg.WINDOW_KEYCODES := by omega
  simp only [handleEvent, h1, h2, hlt, if_true]
  constructor
  · rw [show (160 : Int).toNat = 160 from rfl, List.getElem?_set_self hlen]
    split_ifs <;> simp
  · rw [show (160 : Int).toNat = 160 from rfl, List.getElem?_set_self (by simpa using hlen)]

/-- C2: in a window whose tables have their declared sizes, a key-down whose
index `keysym(sym)` passes the guard (a button-down whose button passes the
guard) lets the loop continue and sets the addressed cell to 1 if it held 0
and to -1 otherwise; the matching key-up (button-up) sets it to 0; every other
cell of `keyMap` and `mouseMap` keeps its value. -/
theorem handleEvent_in_range (cfg : Config) (fl : FloatOps F) (w : Window F) (hwf : w.wf cfg) :
    (∀ sym : Int, Int32 sym → keysym cfg.WINDOW_KEYCODES sym < cfg.WINDOW_KEYCODES →
      ∃ old : Int, w.keyMap[keyIndex cfg sym]? = some old ∧
        (handleEvent cfg fl w (.KEYDOWN sym)).2 = none ∧
        (handleEvent cfg fl w (.KEYDOWN sym)).1.keyMap[keyIndex cfg sym]?
          = some (if old = 0 then 1 else -1) ∧
        (∀ j : Nat, j ≠ keyIndex cfg sym →
          (handleEvent cfg fl w (.KEYDOWN sym)).1.keyMap[j]? = w.keyMap[j]?) ∧
        (handleEvent cfg fl w (.KEYDOWN sym)).1.mouseMap = w.mouseMap ∧
        (handleEvent cfg fl w (.KEYUP sym)).2 = none ∧
        (handleEvent cfg fl w (.KEYUP sym)).1.keyMap[keyIndex cfg sym]? = some 0 ∧
        (∀ j : Nat, j ≠ keyIndex cfg sym →
          (handleEvent cfg fl w (.KEYUP sym)).1.keyMap[j]? = w.keyMap[j]?) ∧
        (handleEvent cfg fl w (.KEYUP sym)).1.mouseMap = w.mouseMap) ∧
    (∀ b : Nat, b < cfg.WINDOW_MOUSECODES →
      ∃ old : Int, w.mouseMap[b]? = some old ∧
        (handleEvent cfg fl w (.MOUSEBUTTONDOWN b)).2 = none ∧
        (handleEvent cfg fl w (.MOUSEBUTTONDOWN b)).1.mouseMap[b]?
          = some (if old = 0 then 1 else -1) ∧
        (∀ j : Nat, j ≠ b →
          (handleEvent cfg fl w (.MOUSEBUTTONDOWN b)).1.mouseMap[j]? = w.mouseMap[j]?) ∧
        (handleEvent cfg fl w (.MOUSEBUTTONDOWN b)).1.keyMap = w.keyMap ∧
        (handleEvent cfg fl w (.MOUSEBUTTONUP b)).2 = none ∧
        (handleEvent cfg fl w (.MOUSEBUTTONUP b)).1.mouseMap[b]? = some 0 ∧
        (∀ j : Nat, j ≠ b →
          (handleEvent cfg fl w (.MOUSEBUTTONUP b)).1.mouseMap[j]? = w.mouseMap[j]?) ∧
        (handleEvent cfg fl w (.MOUSEBUTTONUP b)).1.keyMap = w.keyMap) := by
  constructor
  · intro sym hsym hg
    have hk := keysym_guard _ _ hsym hg
    have hlen : keyIndex cfg sym < w.keyMap.length := by
      rw [hwf.1]; exact hk.2.2
    refine ⟨w.keyMap[keyIndex cfg sym], List.getElem?_eq_getElem hlen, ?_⟩
    have hD : w.keyMap.getD (keyIndex cfg sym) 0 = w.keyMap[keyIndex cfg sym] := by
      rw [List.getD_eq_getElem?_getD, List.getElem?_eq_getElem hlen]; rfl
    simp only [handleEvent, hg, if_true]
    refine ⟨trivial, ?_, ?_, trivial, trivial, ?_, ?_, trivial⟩
    · show (w.keyMap.set (keyIndex cfg sym) _)[keyIndex cfg sym]? = _
      rw [List.getElem?_set_self hlen]
      show some (if w.keyMap.getD (keyIndex cfg sym) 0 = 0 then (1 : Int) else -1) = _
      rw [hD]
    · intro j hj
      exact List.getElem?_set_ne (Ne.symm hj)
    · exact List.getElem?_set_self hlen
    · intro j hj
      exact List.getElem?_set_ne (Ne.symm hj)
  · intro b hb
    have hlen : b < w.mouseMap.length := by
      rw [hwf.2.1]; exact hb
    refine ⟨w.mouseMap[b], List.getElem?_eq_getElem hlen, ?_⟩
    have hD : w.mouseMap.getD b 0 = w.mouseMap[b] := by
      rw [List.getD_eq_getElem?_getD, List.getElem?_eq_getElem hlen]; rfl
    simp only [handleEvent, hb, if_true]
    refine ⟨trivial, ?_, ?_, trivial, trivial, ?_, ?_, trivial⟩
    · rw [List.getElem?_set_self hlen, hD]
    · intro j hj
      exact List.getElem?_set_ne (Ne.symm hj)
    · exact List.getElem?_set_self hlen
    · intro j hj
      exact List.getElem?_set_ne (Ne.symm hj)

/-- C3: a button-down or button-up whose button fails the guard, and a key-down
or key-up whose index `keysym(sym)` fails the guard, makes `Window::get` return
`WindowError` with the matching status code and the offending code (the button,
or the index) as context value, and changes no cell of `keyMap` or `mouseMap`. -/
theorem handleEvent_out_of_range (cfg : Config) (fl : FloatOps F) (w : Window F) :
    (∀ b : Nat, ¬ b < cfg.WINDOW_MOUSECODES →
      ReportsError cfg fl w (.MOUSEBUTTONDOWN b) .ErrorMouseDown b
        "Input error: MOUSEDOWN code out of bounds: " ∧
      ReportsError cfg fl w (.MOUSEBUTTONUP b) .ErrorMouseUp b
        "Input error: MOUSEUP code out of bounds: ") ∧
    (∀ sym : Int, ¬ keysym cfg.WINDOW_KEYCODES sym < cfg.WINDOW_KEYCODES →
      ReportsError cfg fl w (.KEYDOWN sym) .ErrorKeyDown (keysym cfg.WINDOW_KEYCODES sym)
        "Input error: KEYDOWN code out of bounds: " ∧
      ReportsError cfg fl w (.KEYUP sym) .ErrorKeyUp (keysym cfg.WINDOW_KEYCODES sym)
        "Input error: KEYUP code out of bounds: ") := by
  constructor
  · intro b hb
    constructor <;>
      simp [ReportsError, handleEvent, get, hb, setErrorStatus, getErrorStatus]
  · intro sym hs
    constructor <;>
      simp [ReportsError, handleEvent, get, hs, setErrorStatus, getErrorStatus]

/-! ## Lemmas on events and the watched cell -/

theorem handleEvent_triState (cfg : Config) (fl : FloatOps F) (w : Window F) (e : Event)
    (hw : w.triState) : (handleEvent cfg fl w e).1.triState := by
  unfold handleEvent
  split <;> simp only [setErrorStatus] <;> try split_ifs
  all_goals first
    | exact hw
    | exact ⟨set_triState _ _ _ (by unfold TriState; simp) hw.1, hw.2⟩
    | exact ⟨hw.1, set_triState _ _ _ (by unfold TriState; simp) hw.2⟩

theorem handleEvent_held (cfg : Config) (fl : FloatOps F) (w : Window F) (e : Event)
    (h : Handle) (hrel : ¬ e.releases cfg h) :
    (w.load h = some (-1) → (handleEvent cfg fl w e).1.load h = some (-1)) ∧
    (w.load h = some 1 ∨ w.load h = some (-1) →
      (handleEvent cfg fl w e).1.load h = some 1 ∨
      (handleEvent cfg fl w e).1.load h = some (-1)) := by
  cases e with
  | KEYUP sym =>
    simp only [handleEvent]
    by_cases hg : keysym cfg.WINDOW_KEYCODES sym < cfg.WINDOW_KEYCODES
    · rw [if_pos hg]
      cases h with
      | key i =>
        have hne : (keysym cfg.WINDOW_KEYCODES sym).toNat ≠ i := fun e => hrel ⟨hg, by rw [e]⟩
        simp only [Window.load, List.getElem?_set_ne hne]
        exact ⟨id, id⟩
      | button i => exact ⟨id, id⟩
    · rw [if_neg hg]; exact ⟨id, id⟩
  | MOUSEBUTTONUP b =>
    simp only [handleEvent]
    by_cases hg : b < cfg.WINDOW_MOUSECODES
    · rw [if_pos hg]
      cases h with
      | key i => exact ⟨id, id⟩
      | button i =>
        have hne : b ≠ i := fun e => hrel ⟨hg, by rw [e]⟩
        simp only [Window.load, List.getElem?_set_ne hne]
        exact ⟨id, id⟩
    · rw [if_neg hg]; exact ⟨id, id⟩
  | KEYDOWN sym =>
    simp only [handleEvent]
    by_cases hg : keysym cfg.WINDOW_KEYCODES sym < cfg.WINDOW_KEYCODES
    · rw [if_pos hg]
      cases h with
      | key i => exact ⟨set_down_held _ _ _, set_down_fresh _ _ _⟩
      | button i => exact ⟨id, id⟩
    · rw [if_neg hg]; exact ⟨id, id⟩
  | MOUSEBUTTONDOWN b =>
    simp only [handleEvent]
    by_cases hg : b < cfg.WINDOW_MOUSECODES
    · rw [if_pos hg]
      cases h with
      | key i => exact ⟨id, id⟩
      | button i => exact ⟨set_down_held _ _ _, set_down_fresh _ _ _⟩
    · rw [if_neg hg]; exact ⟨id, id⟩
  | WINDOWEVENT we => cases we <;> exact ⟨id, id⟩
  | QUIT => exact ⟨id, id⟩
  | MOUSEMOTION x y xrel yrel => exact ⟨id, id⟩
  | other => exact ⟨id, id⟩

theorem get_held (cfg : Config) (fl : FloatOps F) (w : Window F) (q : List Event)
    (h : Handle) (hrel : ∀ e ∈ q, ¬ e.releases cfg h) :
    (w.load h = some (-1) → (get cfg fl w q).2.1.load h = some (-1)) ∧
    (w.load h = some 1 ∨ w.load h = some (-1) →
      (get cfg fl w q).2.1.load h = some 1 ∨ (get cfg fl w q).2.1.load h = some (-1)) := by
  constructor
  · exact get_preserves cfg fl (fun w1 => w1.load h = some (-1)) q
      (fun w1 e he h1 => (handleEvent_held cfg fl w1 e h (hrel e he)).1 h1) w
  · exact get_preserves cfg fl (fun w1 => w1.load h = some 1 ∨ w1.load h = some (-1)) q
      (fun w1 e he h1 => (handleEvent_held cfg fl w1 e h (hrel e he)).2 h1) w

/-! ## Lemmas on the methods of `InputBind` -/

theorem getPress_some (b : InputBind) (w w1 : Window F) (id r : Int)
    (hs : getPress b w id = some (r, w1)) :
    ∃ h1 v, b.find id = some h1 ∧ w.load h1 = some v ∧
      r = (if v = 1 then 1 * boolToInt b.isActive else 0) ∧
      w1 = (if v = 1 then w.store h1 (-1) else w) := by
  unfold getPress at hs
  cases hf : b.find id with
  | none => simp [hf] at hs
  | some h1 =>
    cases hl : w.load h1 with
    | none => simp [hf, hl] at hs
    | some v =>
      refine ⟨h1, v, rfl, hl, ?_⟩
      simp only [hf, hl] at hs
      split_ifs at hs with hv <;> simp only [Option.some.injEq, Prod.mk.injEq] at hs <;>
        obtain ⟨hr, hw⟩ := hs <;> subst hr <;> subst hw <;> simp [hv]

theorem getInactivePress_some (b : InputBind) (w w1 : Window F) (id r : Int)
    (hs : getInactivePress b w id = some (r, w1)) :
    ∃ h1 v, b.find id = some h1 ∧ w.load h1 = some v ∧
      r = (if v = 1 then 1 else 0) ∧
      w1 = (if v = 1 then w.store h1 (-1) else w) := by
  unfold getInactivePress at hs
  cases hf : b.find id with
  | none => simp [hf] at hs
  | some h1 =>
    cases hl : w.load h1 with
    | none => simp [hf, hl] at hs
    | some v =>
      refine ⟨h1, v, rfl, hl, ?_⟩
      simp only [hf, hl] at hs
      split_ifs at hs with hv <;> simp only [Option.some.injEq, Prod.mk.injEq] at hs <;>
        obtain ⟨hr, hw⟩ := hs <;> subst hr <;> subst hw <;> simp [hv]

theorem getHold_some (b : InputBind) (w w1 : Window F) (id r : Int)
    (hs : getHold b w id = some (r, w1)) :
    ∃ h1 v, b.find id = some h1 ∧ w.load h1 = some v ∧
      r = (v.natAbs : Int) * boolToInt b.isActive ∧ w1 = w := by
  unfold getHold at hs
  cases hf : b.find id with
  | none => simp [hf] at hs
  | some h1 =>
    cases hl : w.load h1 with
    | none => simp [hf, hl] at hs
    | some v =>
      refine ⟨h1, v, rfl, hl, ?_⟩
      simp only [hf, hl, Option.some.injEq, Prod.mk.injEq] at hs
      exact ⟨hs.1.symm, hs.2.symm⟩

theorem flushList_triState (bs : List (Int × Handle)) (w w1 : Window F) (hw : w.triState)
    (hs : flushList bs w = some w1) : w1.triState := by
  induction bs generalizing w with
  | nil =>
    simp only [flushList, Option.some.injEq] at hs
    rw [← hs]; exact hw
  | cons p rest ih =>
    obtain ⟨id, h1⟩ := p
    unfold flushList at hs
    cases hl : w.load h1 with
    | none => simp [hl] at hs
    | some v =>
      simp only [hl] at hs
      refine ih _ ?_ hs
      split_ifs
      · exact store_triState w h1 (-1) triState_held hw
      · exact hw

theorem flushList_held (bs : List (Int × Handle)) (w w1 : Window F) (h : Handle)
    (hs : flushList bs w = some w1) :
    (w.load h = some (-1) → w1.load h = some (-1)) ∧
    (w.load h = some 1 ∨ w.load h = some (-1) → w1.load h = some 1 ∨ w1.load h = some (-1)) := by
  induction bs generalizing w with
  | nil =>
    simp only [flushList, Option.some.injEq] at hs
    rw [← hs]; exact ⟨id, id⟩
  | cons p rest ih =>
    obtain ⟨id, h1⟩ := p
    unfold flushList at hs
    cases hl : w.load h1 with
    | none => simp [hl] at hs
    | some v =>
      simp only [hl] at hs
      have ih1 := ih _ hs
      constructor
      · intro hh
        exact ih1.1 (consume_held w h h1 v hl hh)
      · intro hh
        apply ih1.2
        rcases hh with hh | hh
        · rcases consume_fresh w h h1 v hl hh with h2 | h2
          · exact Or.inl h2.1
          · exact Or.inr h2
        · exact Or.inr (consume_held w h h1 v hl hh)

theorem reported_congr (b b1 : InputBind) (h : Handle) (c : Op × Out)
    (hb : b1.bindings = b.bindings) : reported b1 h c = reported b h c := by
  unfold reported InputBind.find
  rw [hb]

theorem run_cons_some (cfg : Config) (fl : FloatOps F) (s s2 : Sys F) (op : Op)
    (rest : List Op) (log : List (Op × Out))
    (hr : run cfg fl s (op :: rest) = some (s2, log)) :
    ∃ s1 out log1, step cfg fl s op = some (s1, out) ∧
      run cfg fl s1 rest = some (s2, log1) ∧ log = (op, out) :: log1 := by
  unfold run at hr
  cases hs : step cfg fl s op with
  | none => simp [hs] at hr
  | some r =>
    obtain ⟨s1, out⟩ := r
    simp only [hs] at hr
    cases hr1 : run cfg fl s1 rest with
    | none => simp [hr1] at hr
    | some r1 =>
      obtain ⟨s3, log1⟩ := r1
      simp only [hr1, Option.some.injEq, Prod.mk.injEq] at hr
      exact ⟨s1, out, log1, rfl, by rw [← hr.1, hr1], hr.2.symm⟩

/-! ## Lemmas on single calls and call sequences -/

theorem step_triState (cfg : Config) (fl : FloatOps F) (s s1 : Sys F) (op : Op) (out : Out)
    (hw : s.win.triState) (hs : step cfg fl s op = some (s1, out)) : s1.win.triState := by
  cases op with
  | get q =>
    simp only [step, Option.some.injEq, Prod.mk.injEq] at hs
    rw [← hs.1]
    exact get_preserves cfg fl Window.triState q
      (fun w e _ h => handleEvent_triState cfg fl w e h) s.win hw
  | getPress id =>
    simp only [step, Option.map_eq_some', Prod.mk.injEq] at hs
    obtain ⟨⟨r, w1⟩, hg, hs1, _⟩ := hs
    obtain ⟨h1, v, _, _, _, hw1⟩ := getPress_some _ _ _ _ _ hg
    rw [← hs1]
    show w1.triState
    rw [hw1]
    split_ifs
    · exact store_triState _ h1 (-1) triState_held hw
    · exact hw
  | getInactivePress id =>
    simp only [step, Option.map_eq_some', Prod.mk.injEq] at hs
    obtain ⟨⟨r, w1⟩, hg, hs1, _⟩ := hs
    obtain ⟨h1, v, _, _, _, hw1⟩ := getInactivePress_some _ _ _ _ _ hg
    rw [← hs1]
    show w1.triState
    rw [hw1]
    split_ifs
    · exact store_triState _ h1 (-1) triState_held hw
    · exact hw
  | getHold id =>
    simp only [step, Option.map_eq_some', Prod.mk.injEq] at hs
    obtain ⟨⟨r, w1⟩, hg, hs1, _⟩ := hs
    obtain ⟨h1, v, _, _, _, hw1⟩ := getHold_some _ _ _ _ _ hg
    rw [← hs1]
    show w1.triState
    rw [hw1]
    exact hw
  | flush =>
    simp only [step, Option.map_eq_some', Prod.mk.injEq] at hs
    obtain ⟨w1, hfl, hs1, _⟩ := hs
    rw [← hs1]
    exact flushList_triState _ _ _ hw hfl
  | setActive a =>
    simp only [step, Option.some.injEq, Prod.mk.injEq] at hs
    rw [← hs.1]
    exact hw

theorem run_triState (cfg : Config) (fl : FloatOps F) (ops : List Op) :
    ∀ (s s2 : Sys F) (log : List (Op × Out)), s.win.triState →
      run cfg fl s ops = some (s2, log) → s2.win.triState := by
  induction ops with
  | nil =>
    intro s s2 log hw hr
    simp only [run, Option.some.injEq, Prod.mk.injEq] at hr
    rw [← hr.1]; exact hw
  | cons op rest ih =>
    intro s s2 log hw hr
    obtain ⟨s1, out, log1, hs, hr1, _⟩ := run_cons_some cfg fl s s2 op rest log hr
    exact ih s1 s2 log1 (step_triState cfg fl s s1 op out hw hs) hr1

theorem step_held (cfg : Config) (fl : FloatOps F) (s s1 : Sys F) (h : Handle) (op : Op)
    (out : Out) (hrel : ¬ op.releases cfg h) (hs : step cfg fl s op = some (s1, out)) :
    s1.bind.bindings = s.bind.bindings ∧
    (s.win.load h = some (-1) →
      s1.win.load h = some (-1) ∧ reported s.bind h (op, out) = false) ∧
    (s.win.load h = some 1 →
      (s1.win.load h = some 1 ∧ reported s.bind h (op, out) = false) ∨
      s1.win.load h = some (-1)) := by
  cases op with
  | get q =>
    simp only [step, Option.some.injEq, Prod.mk.injEq] at hs
    obtain ⟨hs1, _⟩ := hs
    subst hs1
    have hq : ∀ e ∈ q, ¬ e.releases cfg h := fun e he hr => hrel ⟨e, he, hr⟩
    have hg := get_held cfg fl s.win q h hq
    refine ⟨rfl, fun hh => ⟨hg.1 hh, rfl⟩, fun hh => ?_⟩
    rcases hg.2 (Or.inl hh) with h2 | h2
    · exact Or.inl ⟨h2, rfl⟩
    · exact Or.inr h2
  | getPress id =>
    simp only [step, Option.map_eq_some', Prod.mk.injEq] at hs
    obtain ⟨⟨r, w1⟩, hg, hs1, hout⟩ := hs
    subst hs1; subst hout
    obtain ⟨h1, v, hf, hl, hr, hw1⟩ := getPress_some _ _ _ _ _ hg
    subst hw1
    refine ⟨rfl, fun hh => ⟨consume_held _ h h1 v hl hh, ?_⟩, fun hh => ?_⟩
    · simp only [reported, decide_eq_false_iff_not, not_and]
      intro hfh
      have h1h : h1 = h := by rw [hf] at hfh; exact Option.some.inj hfh
      subst h1h
      have hv : v = -1 := by rw [hl] at hh; exact Option.some.inj hh
      rw [hr, hv]; simp
    · rcases consume_fresh _ h h1 v hl hh with h2 | h2
      · left
        refine ⟨h2.1, ?_⟩
        simp only [reported, decide_eq_false_iff_not, not_and]
        intro hfh
        exact absurd (by rw [hf] at hfh; exact Option.some.inj hfh) h2.2
      · exact Or.inr h2
  | getInactivePress id =>
    simp only [step, Option.map_eq_some', Prod.mk.injEq] at hs
    obtain ⟨⟨r, w1⟩, hg, hs1, hout⟩ := hs
    subst hs1; subst hout
    obtain ⟨h1, v, hf, hl, hr, hw1⟩ := getInactivePress_some _ _ _ _ _ hg
    subst hw1
    refine ⟨rfl, fun hh => ⟨consume_held _ h h1 v hl hh, ?_⟩, fun hh => ?_⟩
    · simp only [reported, decide_eq_false_iff_not, not_and]
      intro hfh
      have h1h : h1 = h := by rw [hf] at hfh; exact Option.some.inj hfh
      subst h1h
      have hv : v = -1 := by rw [hl] at hh; exact Option.some.inj hh
      rw [hr, hv]; simp
    · rcases consume_fresh _ h h1 v hl hh with h2 | h2
      · left
        refine ⟨h2.1, ?_⟩
        simp only [reported, decide_eq_false_iff_not, not_and]
        intro hfh
        exact absurd (by rw [hf] at hfh; exact Option.some.inj hfh) h2.2
      · exact Or.inr h2
  | getHold id =>
    simp only [step, Option.map_eq_some', Prod.mk.injEq] at hs
    obtain ⟨⟨r, w1⟩, hg, hs1, hout⟩ := hs
    subst hs1; subst hout
    obtain ⟨h1, v, hf, hl, hr, hw1⟩ := getHold_some _ _ _ _ _ hg
    subst hw1
    exact ⟨rfl, fun hh => ⟨hh, rfl⟩, fun hh => Or.inl ⟨hh, rfl⟩⟩
  | flush =>
    simp only [step, Option.map_eq_some', Prod.mk.injEq] at hs
    obtain ⟨w1, hfl, hs1, hout⟩ := hs
    subst hs1; subst hout
    have hfh := flushList_held _ _ _ h hfl
    refine ⟨rfl, fun hh => ⟨hfh.1 hh, rfl⟩, fun hh => ?_⟩
    rcases hfh.2 (Or.inl hh) with h2 | h2
    · exact Or.inl ⟨h2, rfl⟩
    · exact Or.inr h2
  | setActive a =>
    simp only [step, Option.some.injEq, Prod.mk.injEq] at hs
    obtain ⟨hs1, hout⟩ := hs
    subst hs1; subst hout
    exact ⟨rfl, fun hh => ⟨hh, rfl⟩, fun hh => Or.inl ⟨hh, rfl⟩⟩

theorem run_held (cfg : Config) (fl : FloatOps F) (b0 : InputBind) (h : Handle)
    (ops : List Op) :
    ∀ (s s2 : Sys F) (log : List (Op × Out)), s.bind.bindings = b0.bindings →
      s.win.load h = some (-1) → (∀ op ∈ ops, ¬ op.releases cfg h) →
      run cfg fl s ops = some (s2, log) →
      s2.win.load h = some (-1) ∧ s2.bind.bindings = b0.bindings ∧
      log.countP (reported b0 h) = 0 := by
  induction ops with
  | nil =>
    intro s s2 log hb hl _ hr
    simp only [run, Option.some.injEq, Prod.mk.injEq] at hr
    obtain ⟨rfl, rfl⟩ := hr
    exact ⟨hl, hb, rfl⟩
  | cons op rest ih =>
    intro s s2 log hb hl hrel hr
    obtain ⟨s1, out, log1, hs, hr1, hlog⟩ := run_cons_some cfg fl s s2 op rest log hr
    have hst := step_held cfg fl s s1 h op out (hrel op (List.mem_cons_self _ _)) hs
    obtain ⟨hl1, hrep⟩ := hst.2.1 hl
    have ih1 := ih s1 s2 log1 (hst.1.trans hb) hl1
      (fun o ho => hrel o (List.mem_cons_of_mem _ ho)) hr1
    refine ⟨ih1.1, ih1.2.1, ?_⟩
    rw [hlog, List.countP_cons, ih1.2.2, reported_congr s.bind b0 h _ hb.symm, hrep]
    rfl

theorem run_fresh (cfg : Config) (fl : FloatOps F) (b0 : InputBind) (h : Handle)
    (ops : List Op) :
    ∀ (s s2 : Sys F) (log : List (Op × Out)), s.bind.bindings = b0.bindings →
      s.win.load h = some 1 → (∀ op ∈ ops, ¬ op.releases cfg h) →
      run cfg fl s ops = some (s2, log) →
      log.countP (reported b0 h) ≤ 1 := by
  induction ops with
  | nil =>
    intro s s2 log hb hl _ hr
    simp only [run, Option.some.injEq, Prod.mk.injEq] at hr
    obtain ⟨rfl, rfl⟩ := hr
    simp
  | cons op rest ih =>
    intro s s2 log hb hl hrel hr
    obtain ⟨s1, out, log1, hs, hr1, hlog⟩ := run_cons_some cfg fl s s2 op rest log hr
    have hst := step_held cfg fl s s1 h op out (hrel op (List.mem_cons_self _ _)) hs
    have hrest : ∀ o ∈ rest, ¬ o.releases cfg h := fun o ho => hrel o (List.mem_cons_of_mem _ ho)
    rw [hlog, List.countP_cons]
    rcases hst.2.2 hl with ⟨hl1, hrep⟩ | hl1
    · have ih1 := ih s1 s2 log1 (hst.1.trans hb) hl1 hrest hr1
      rw [reported_congr s.bind b0 h _ hb.symm, hrep]
      simpa using ih1
    · have h0 := (run_held cfg fl b0 h rest s1 s2 log1 (hst.1.trans hb) hl1 hrest hr1).2.2
      rw [h0]
      split_ifs <;> simp

theorem step_inactive (cfg : Config) (fl : FloatOps F) (s s1 : Sys F) (op : Op) (out : Out)
    (hin : s.bind.isActive = false) (hop : op ≠ .setActive true)
    (hs : step cfg fl s op = some (s1, out)) :
    s1.bind.isActive = false ∧ ∀ id, op = .getPress id → out = .int 0 := by
  cases op with
  | get q =>
    simp only [step, Option.some.injEq, Prod.mk.injEq] at hs
    rw [← hs.1]
    exact ⟨hin, fun id hid => by cases hid⟩
  | getPress id =>
    simp only [step, Option.map_eq_some', Prod.mk.injEq] at hs
    obtain ⟨⟨r, w1⟩, hg, hs1, hout⟩ := hs
    obtain ⟨h1, v, _, _, hr, _⟩ := getPress_some _ _ _ _ _ hg
    rw [← hs1, ← hout]
    refine ⟨hin, fun _ _ => ?_⟩
    show Out.int r = Out.int 0
    rw [hr, hin]
    simp [boolToInt]
  | getInactivePress id =>
    simp only [step, Option.map_eq_some', Prod.mk.injEq] at hs
    obtain ⟨⟨r, w1⟩, hg, hs1, hout⟩ := hs
    rw [← hs1]
    exact ⟨hin, fun id hid => by cases hid⟩
  | getHold id =>
    simp only [step, Option.map_eq_some', Prod.mk.injEq] at hs
    obtain ⟨⟨r, w1⟩, hg, hs1, hout⟩ := hs
    rw [← hs1]
    exact ⟨hin, fun id hid => by cases hid⟩
  | flush =>
    simp only [step, Option.map_eq_some', Prod.mk.injEq] at hs
    obtain ⟨w1, hfl, hs1, hout⟩ := hs
    rw [← hs1]
    exact ⟨hin, fun id hid => by cases hid⟩
  | setActive a =>
    simp only [step, Option.some.injEq, Prod.mk.injEq] at hs
    rw [← hs.1]
    cases a with
    | true => exact absurd rfl hop
    | false => exact ⟨rfl, fun id hid => by cases hid⟩

theorem run_inactive (cfg : Config) (fl : FloatOps F) (ops : List Op) :
    ∀ (s s2 : Sys F) (log : List (Op × Out)), s.bind.isActive = false →
      (∀ op ∈ ops, op ≠ .setActive true) → run cfg fl s ops = some (s2, log) →
      ∀ id out, (Op.getPress id, out) ∈ log → out = .int 0 := by
  induction ops with
  | nil =>
    intro s s2 log _ _ hr id out hmem
    simp only [run, Option.some.injEq, Prod.mk.injEq] at hr
    rw [← hr.2] at hmem
    cases hmem
  | cons op rest ih =>
    intro s s2 log hin hops hr id out hmem
    obtain ⟨s1, o1, log1, hs, hr1, hlog⟩ := run_cons_some cfg fl s s2 op rest log hr
    have hst := step_inactive cfg fl s s1 op o1 hin (hops op (List.mem_cons_self _ _)) hs
    rw [hlog, List.mem_cons] at hmem
    rcases hmem with heq | hmem
    · simp only [Prod.mk.injEq] at heq
      rw [heq.2]
      exact hst.2 id heq.1.symm
    · exact ih s1 s2 log1 hst.1 (fun o ho => hops o (List.mem_cons_of_mem _ ho)) hr1 id out hmem

/-! ## Calls on bound ids run to the end -/

theorem handleEvent_sameSize (cfg : Config) (fl : FloatOps F) (w : Window F) (e : Event) :
    w.sameSize (handleEvent cfg fl w e).1 := by
  unfold handleEvent Window.sameSize
  split <;> simp only [setErrorStatus] <;> try split_ifs
  all_goals simp [List.length_set]

theorem get_sameSize (cfg : Config) (fl : FloatOps F) (w : Window F) (q : List Event) :
    w.sameSize (get cfg fl w q).2.1 :=
  get_preserves cfg fl (fun w1 => w.sameSize w1) q
    (fun w1 e _ h1 =>
      ⟨(handleEvent_sameSize cfg fl w1 e).1.trans h1.1,
       (handleEvent_sameSize cfg fl w1 e).2.trans h1.2⟩) w ⟨rfl, rfl⟩

theorem store_sameSize (w : Window F) (h : Handle) (x : Int) : w.sameSize (w.store h x) := by
  cases h <;> simp [Window.sameSize, Window.store, List.length_set]

theorem valid_of_sameSize (w w1 : Window F) (h : Handle) (hs : w.sameSize w1)
    (hv : h.valid w) : h.valid w1 := by
  cases h with
  | key i => exact (show i < w1.keyMap.length by rw [hs.1]; exact hv)
  | button i => exact (show i < w1.mouseMap.length by rw [hs.2]; exact hv)

theorem load_of_valid (w : Window F) (h : Handle) (hv : h.valid w) :
    ∃ v, w.load h = some v := by
  cases h with
  | key i => exact ⟨w.keyMap[i], List.getElem?_eq_getElem hv⟩
  | button i => exact ⟨w.mouseMap[i], List.getElem?_eq_getElem hv⟩

theorem mem_of_lookup (bs : List (Int × Handle)) (id : Int) (h : Handle)
    (hl : bs.lookup id = some h) : (id, h) ∈ bs := by
  induction bs with
  | nil => simp [List.lookup] at hl
  | cons p rest ih =>
    obtain ⟨k, v⟩ := p
    by_cases hk : id = k
    · subst hk
      simp only [List.lookup, beq_self_eq_true, Option.some.injEq] at hl
      rw [hl]
      exact List.mem_cons_self _ _
    · have hb : (id == k) = false := by simpa using hk
      simp only [List.lookup, hb] at hl
      exact List.mem_cons_of_mem _ (ih hl)

theorem flushList_total (bs : List (Int × Handle)) (w : Window F)
    (hv : ∀ p ∈ bs, p.2.valid w) :
    ∃ w1, flushList bs w = some w1 ∧ w.sameSize w1 := by
  induction bs generalizing w with
  | nil => exact ⟨w, rfl, rfl, rfl⟩
  | cons p rest ih =>
    obtain ⟨id, h1⟩ := p
    obtain ⟨v, hl⟩ := load_of_valid w h1 (hv (id, h1) (List.mem_cons_self _ _))
    have hsz : w.sameSize (if v = 1 then w.store h1 (-1) else w) := by
      split_ifs
      · exact store_sameSize w h1 (-1)
      · exact ⟨rfl, rfl⟩
    obtain ⟨w1, hf, hs1⟩ := ih (if v = 1 then w.store h1 (-1) else w)
      (fun p hp => valid_of_sameSize w _ p.2 hsz (hv p (List.mem_cons_of_mem _ hp)))
    refine ⟨w1, ?_, hs1.1.trans hsz.1, hs1.2.trans hsz.2⟩
    unfold flushList
    simp only [hl]
    exact hf

theorem step_total (cfg : Config) (fl : FloatOps F) (s : Sys F) (op : Op)
    (hv : s.bind.valid s.win) (hb : op.bound s.bind) :
    ∃ s1 out, step cfg fl s op = some (s1, out) ∧ s1.bind.bindings = s.bind.bindings ∧
      s.win.sameSize s1.win := by
  cases op with
  | get q => exact ⟨_, _, rfl, rfl, get_sameSize cfg fl s.win q⟩
  | getPress id =>
    obtain ⟨h, hf⟩ := hb
    obtain ⟨v, hl⟩ := load_of_valid s.win h (hv (id, h) (mem_of_lookup _ _ _ hf))
    by_cases hv1 : v = 1
    · exact ⟨{ s with win := s.win.store h (-1) }, .int (1 * boolToInt s.bind.isActive),
        by simp [step, getPress, hf, hl, hv1], rfl, store_sameSize s.win h (-1)⟩
    · exact ⟨s, .int 0, by simp [step, getPress, hf, hl, hv1], rfl, rfl, rfl⟩
  | getInactivePress id =>
    obtain ⟨h, hf⟩ := hb
    obtain ⟨v, hl⟩ := load_of_valid s.win h (hv (id, h) (mem_of_lookup _ _ _ hf))
    by_cases hv1 : v = 1
    · exact ⟨{ s with win := s.win.store h (-1) }, .int 1,
        by simp [step, getInactivePress, hf, hl, hv1], rfl, store_sameSize s.win h (-1)⟩
    · exact ⟨s, .int 0, by simp [step, getInactivePress, hf, hl, hv1], rfl, rfl, rfl⟩
  | getHold id =>
    obtain ⟨h, hf⟩ := hb
    obtain ⟨v, hl⟩ := load_of_valid s.win h (hv (id, h) (mem_of_lookup _ _ _ hf))
    exact ⟨s, .int ((v.natAbs : Int) * boolToInt s.bind.isActive),
      by simp [step, getHold, hf, hl], rfl, rfl, rfl⟩
  | flush =>
    obtain ⟨w1, hf, hs1⟩ := flushList_total s.bind.bindings s.win hv
    exact ⟨{ s with win := w1 }, .unit, by simp [step, flush, hf], rfl, hs1⟩
  | setActive a => exact ⟨_, _, rfl, rfl, rfl, rfl⟩

theorem bound_congr (b b1 : InputBind) (op : Op) (hb : b1.bindings = b.bindings)
    (h : op.bound b) : op.bound b1 := by
  cases op <;> simp only [Op.bound, InputBind.find] at h ⊢ <;> (rw [hb]; exact h)

theorem run_total (cfg : Config) (fl : FloatOps F) (ops : List Op) :
    ∀ s : Sys F, s.bind.valid s.win → (∀ op ∈ ops, op.bound s.bind) →
      ∃ s2 log, run cfg fl s ops = some (s2, log) := by
  induction ops with
  | nil => exact fun s _ _ => ⟨s, [], rfl⟩
  | cons op rest ih =>
    intro s hv hb
    obtain ⟨s1, out, hs, hbind, hsz⟩ :=
      step_total cfg fl s op hv (hb op (List.mem_cons_self _ _))
    have hv1 : s1.bind.valid s1.win := by
      intro p hp
      rw [hbind] at hp
      exact valid_of_sameSize s.win s1.win p.2 hsz (hv p hp)
    obtain ⟨s2, log, hr⟩ := ih s1 hv1
      (fun o ho => bound_congr s.bind s1.bind o hbind (hb o (List.mem_cons_of_mem _ ho)))
    exact ⟨s2, (op, out) :: log, by simp [run, hs, hr]⟩

/-! ## Claims on the state tables and the bindings -/

/-- C1: after the input initialisation of the constructor every cell of `keyMap`
and `mouseMap` is 0, any sequence of `Window::get`, `getPress`,
`getInactivePress`, `getHold`, `flush` and `setActive` calls that starts with
every cell in {-1, 0, 1} ends with every cell in {-1, 0, 1}, and so does any
such sequence that starts from the constructed window; a sequence whose ids are
all bound to cells inside the tables does run to its end. -/
theorem triState_invariant (cfg : Config) (fl : FloatOps F) :
    (∀ (mem : Window F) (dflt : ErrorContext) (w h p0 p1 : Int),
      mem.keyMap.length = cfg.WINDOW_KEYCODES → mem.mouseMap.length = cfg.WINDOW_MOUSECODES →
      (∀ v ∈ (Window.init cfg fl mem dflt w h p0 p1).keyMap, v = 0) ∧
      (∀ v ∈ (Window.init cfg fl mem dflt w h p0 p1).mouseMap, v = 0) ∧
      (Window.init cfg fl mem dflt w h p0 p1).keyMap.length = cfg.WINDOW_KEYCODES ∧
      (Window.init cfg fl mem dflt w h p0 p1).mouseMap.length = cfg.WINDOW_MOUSECODES) ∧
    (∀ (s s2 : Sys F) (ops : List Op) (log : List (Op × Out)),
      s.win.triState → run cfg fl s ops = some (s2, log) → s2.win.triState) ∧
    (∀ (mem : Window F) (dflt : ErrorContext) (w h p0 p1 : Int) (b : InputBind) (s2 : Sys F)
      (ops : List Op) (log : List (Op × Out)),
      mem.keyMap.length = cfg.WINDOW_KEYCODES → mem.mouseMap.length = cfg.WINDOW_MOUSECODES →
      run cfg fl { win := Window.init cfg fl mem dflt w h p0 p1, bind := b } ops = some (s2, log) →
      s2.win.triState) ∧
    (∀ (s : Sys F) (ops : List Op), s.win.triState → s.bind.valid s.win →
      (∀ op ∈ ops, op.bound s.bind) →
      ∃ (s2 : Sys F) (log : List (Op × Out)),
        run cfg fl s ops = some (s2, log) ∧ s2.win.triState) := by
  have hinit : ∀ (mem : Window F) (dflt : ErrorContext) (w h p0 p1 : Int),
      mem.keyMap.length = cfg.WINDOW_KEYCODES → mem.mouseMap.length = cfg.WINDOW_MOUSECODES →
      (∀ v ∈ (Window.init cfg fl mem dflt w h p0 p1).keyMap, v = 0) ∧
      (∀ v ∈ (Window.init cfg fl mem dflt w h p0 p1).mouseMap, v = 0) ∧
      (Window.init cfg fl mem dflt w h p0 p1).keyMap.length = cfg.WINDOW_KEYCODES ∧
      (Window.init cfg fl mem dflt w h p0 p1).mouseMap.length = cfg.WINDOW_MOUSECODES := by
    intro mem dflt w h p0 p1 hk hm
    exact ⟨zeroFill_all _ _ hk, zeroFill_all _ _ hm,
      (zeroFill_length _ _).trans hk, (zeroFill_length _ _).trans hm⟩
  refine ⟨hinit, fun s s2 ops log hw hr => run_triState cfg fl ops s s2 log hw hr, ?_, ?_⟩
  · intro mem dflt w h p0 p1 b s2 ops log hk hm hr
    have h0 := hinit mem dflt w h p0 p1 hk hm
    refine run_triState cfg fl ops _ s2 log ⟨?_, ?_⟩ hr
    · intro v hv
      exact Or.inr (Or.inl (h0.1 v hv))
    · intro v hv
      exact Or.inr (Or.inl (h0.2.1 v hv))
  · intro s ops hw hv hb
    obtain ⟨s2, log, hr⟩ := run_total cfg fl ops s hv hb
    exact ⟨s2, log, hr, run_triState cfg fl ops s s2 log hw hr⟩

/-- C4: for an id bound to a valid cell holding `v`, `getPress` returns 1 when
the binding is active and `v` is 1 and returns 0 in every other case; a freshly
constructed `InputBind` is inactive, `bind` does not change the flag, and while
no `setActive(true)` is called on an inactive binding every `getPress` returns 0. -/
theorem getPress_gated (cfg : Config) (fl : FloatOps F) :
    (∀ (b : InputBind) (w : Window F) (id : Int) (h : Handle) (v : Int),
      b.find id = some h → w.load h = some v →
      ∃ (r : Int) (w1 : Window F), getPress b w id = some (r, w1) ∧
        (r = 1 ↔ (b.isActive = true ∧ v = 1)) ∧ (r ≠ 1 → r = 0)) ∧
    (InputBind.new.isActive = false ∧
      ∀ (b : InputBind) (id : Int) (h : Handle), (b.bind id h).isActive = b.isActive) ∧
    (∀ (s s2 : Sys F) (ops : List Op) (log : List (Op × Out)),
      s.bind.isActive = false → (∀ op ∈ ops, op ≠ .setActive true) →
      run cfg fl s ops = some (s2, log) →
      ∀ (id : Int) (out : Out), (Op.getPress id, out) ∈ log → out = .int 0) := by
  refine ⟨?_, ⟨rfl, fun _ _ _ => rfl⟩, fun s s2 ops log hin hops hr =>
    run_inactive cfg fl ops s s2 log hin hops hr⟩
  intro b w id h v hf hl
  unfold getPress
  simp only [hf, hl]
  by_cases hv : v = 1
  · refine ⟨1 * boolToInt b.isActive, w.store h (-1), by rw [if_pos hv], ?_, ?_⟩
    · cases b.isActive <;> simp [boolToInt, hv]
    · cases b.isActive <;> simp [boolToInt]
  · refine ⟨0, w, by rw [if_neg hv], ?_, ?_⟩
    · simp [hv]
    · intro _; rfl

/-- C5: for an id bound to a valid cell holding a value `v` in {-1, 0, 1},
`getHold` returns 1 when the binding is active and `v` is not 0, returns 0
otherwise, and leaves the window (every cell included) as it was. -/
theorem getHold_gated (b : InputBind) (w : Window F) (id : Int) (h : Handle) (v : Int)
    (hf : b.find id = some h) (hl : w.load h = some v) (hv : TriState v) :
    getHold b w id = some (if b.isActive = true ∧ v ≠ 0 then 1 else 0, w) := by
  unfold getHold
  simp only [hf, hl]
  rcases hv with hv | hv | hv <;> subst hv <;> cases b.isActive <;> simp [boolToInt]

/-- C6: when a down event sets a cell from 0 to 1 and no up event for that cell
is polled afterwards, at most one of the following `getPress` and
`getInactivePress` calls on ids bound to that cell returns 1, whatever other
calls and events are interleaved; and two `getPress` calls on the same id with
nothing in between never both return 1. -/
theorem press_reported_once (cfg : Config) (fl : FloatOps F) :
    (∀ (s s2 : Sys F) (e : Event) (h : Handle) (ops : List Op) (log : List (Op × Out)),
      s.win.load h = some 0 → e.presses cfg h → (∀ op ∈ ops, ¬ op.releases cfg h) →
      run cfg fl s (.get [e] :: ops) = some (s2, log) →
      (get cfg fl s.win [e]).2.1.load h = some 1 ∧ log.countP (reported s.bind h) ≤ 1) ∧
    (∀ (b : InputBind) (w w1 w2 : Window F) (id r1 r2 : Int),
      getPress b w id = some (r1, w1) → getPress b w1 id = some (r2, w2) →
      ¬ (r1 = 1 ∧ r2 = 1)) := by
  constructor
  · intro s s2 e h ops log hl hp hrel hr
    have hfresh : (get cfg fl s.win [e]).2.1.load h = some 1 := by
      cases e with
      | KEYDOWN sym =>
        obtain ⟨hg, hh⟩ := hp
        subst hh
        have hlt : (keysym cfg.WINDOW_KEYCODES sym).toNat < s.win.keyMap.length :=
          (List.getElem?_eq_some.mp hl).1
        simp only [get, handleEvent, hg, if_true, Window.load]
        rw [List.getElem?_set_self hlt, getD_of_getElem? _ _ _ hl]
        rfl
      | MOUSEBUTTONDOWN b =>
        obtain ⟨hg, hh⟩ := hp
        subst hh
        have hlt : b < s.win.mouseMap.length := (List.getElem?_eq_some.mp hl).1
        simp only [get, handleEvent, hg, if_true, Window.load]
        rw [List.getElem?_set_self hlt, getD_of_getElem? _ _ _ hl]
        rfl
      | QUIT => exact absurd hp id
      | MOUSEBUTTONUP b => exact absurd hp id
      | KEYUP sym => exact absurd hp id
      | MOUSEMOTION x y xrel yrel => exact absurd hp id
      | WINDOWEVENT we => exact absurd hp id
      | other => exact absurd hp id
    refine ⟨hfresh, ?_⟩
    obtain ⟨s1, out, log1, hs, hr1, hlog⟩ := run_cons_some cfg fl s s2 _ ops log hr
    simp only [step, Option.some.injEq, Prod.mk.injEq] at hs
    obtain ⟨hs1, hout⟩ := hs
    subst hs1
    have h1 := run_fresh cfg fl s.bind h ops
      { s with win := (get cfg fl s.win [e]).2.1 } s2 log1 rfl hfresh hrel hr1
    rw [hlog, List.countP_cons]
    have : reported s.bind h (Op.get [e], out) = false := rfl
    rw [this]
    simpa using h1
  · intro b w w1 w2 id r1 r2 h1 h2 hboth
    obtain ⟨ha, va, hfa, hla, hra, hwa⟩ := getPress_some _ _ _ _ _ h1
    obtain ⟨hb, vb, hfb, hlb, hrb, hwb⟩ := getPress_some _ _ _ _ _ h2
    have hab : hb = ha := by rw [hfa] at hfb; exact (Option.some.inj hfb).symm
    subst hab
    by_cases hva : va = 1
    · rw [if_pos hva] at hwa
      have hnew : w1.load hb = some (-1) := by
        rw [hwa]; exact load_store_same w hb va (-1) hla
      have hvb : vb = -1 := by rw [hlb] at hnew; exact Option.some.inj hnew
      rw [hrb, hvb] at hboth
      simp at hboth
    · rw [hra, if_neg hva] at hboth
      simp at hboth

/-- C10: a `getPress` on an inactive binding whose cell holds 1 returns 0 and
sets the cell to -1; from then on, as long as no up event for that cell is
polled, a `getPress` made right after `setActive(true)` returns 0 and a
`getHold` returns 1. -/
theorem inactive_press_consumed (cfg : Config) (fl : FloatOps F) (b : InputBind)
    (w : Window F) (id : Int) (h : Handle) (hf : b.find id = some h)
    (hl : w.load h = some 1) (hin : b.isActive = false) :
    ∃ w1 : Window F, getPress b w id = some (0, w1) ∧ w1.load h = some (-1) ∧
      ∀ (ops : List Op) (s2 : Sys F) (log : List (Op × Out)),
        (∀ op ∈ ops, ¬ op.releases cfg h) →
        run cfg fl { win := w1, bind := b } ops = some (s2, log) →
        getPress (s2.bind.setActive true) s2.win id = some (0, s2.win) ∧
        getHold (s2.bind.setActive true) s2.win id = some (1, s2.win) := by
  refine ⟨w.store h (-1), ?_, load_store_same w h 1 (-1) hl, ?_⟩
  · unfold getPress
    simp [hf, hl, hin, boolToInt]
  · intro ops s2 log hrel hr
    have hh := run_held cfg fl b h ops _ s2 log rfl (load_store_same w h 1 (-1) hl) hrel hr
    have hf2 : (s2.bind.setActive true).find id = some h := by
      unfold InputBind.find InputBind.setActive
      show s2.bind.bindings.lookup id = some h
      rw [hh.2.1]; exact hf
    constructor
    · unfold getPress
      rw [hf2]
      simp only [hh.1]
      simp
    · unfold getHold
      rw [hf2]
      simp only [hh.1]
      simp [InputBind.setActive, boolToInt]

/-! ## Rate timers -/

theorem timerLoop_succ (n : Nat) (w : Window F) :
    timerLoop (n + 1) w =
      { timerLoop n w with
        timePrev := (timerLoop n w).timePrev.set n
          ((timerLoop n w).timeStart - (timerLoop n w).timePeriod.getD n 0) } := by
  simp [timerLoop, List.range_succ, List.foldl_append]

theorem timerLoop_spec (n : Nat) (w : Window F) :
    (timerLoop n w).timePeriod = w.timePeriod ∧ (timerLoop n w).timeStart = w.timeStart ∧
    (timerLoop n w).timePrev.length = w.timePrev.length ∧
    ∀ i : Nat, i < n → i < w.timePrev.length →
      (timerLoop n w).timePrev[i]? = some (w.timeStart - w.timePeriod.getD i 0) := by
  induction n with
  | zero =>
    refine ⟨rfl, rfl, rfl, ?_⟩
    intro i hi
    omega
  | succ n ih =>
    obtain ⟨h1, h2, h3, h4⟩ := ih
    rw [timerLoop_succ]
    refine ⟨h1, h2, ?_, ?_⟩
    · show ((timerLoop n w).timePrev.set n _).length = _
      rw [List.length_set, h3]
    · intro i hi hlen
      show ((timerLoop n w).timePrev.set n _)[i]? = _
      rw [List.getElem?_set]
      by_cases hn : n = i
      · subst hn
        rw [if_pos rfl, if_pos (by rw [h3]; exact hlen), h1, h2]
      · rw [if_neg hn]
        exact h4 i (by omega) hlen

theorem cap_spec (w : Window F) (type : Nat) (now P old : Int)
    (hP : w.timePeriod[type]? = some P) (hold : w.timePrev[type]? = some old) :
    cap w type now =
      if now - old > P then (true, { w with timePrev := w.timePrev.set type (old + P) })
      else (false, w) := by
  unfold cap
  rw [getD_of_getElem? _ _ _ hP, getD_of_getElem? _ _ _ hold]

theorem capRun_bound (type : Nat) (P t : Int) (calls : List (Nat × Int)) :
    ∀ (w : Window F) (tp : Int), w.timePeriod[type]? = some P → w.timePrev[type]? = some tp →
      (∀ c ∈ calls, c.2 ≤ t) →
      (capRun w calls).2.count (type, true) = 0 ∨
      tp + ((capRun w calls).2.count (type, true) : Int) * P < t := by
  induction calls with
  | nil =>
    intro w tp _ _ _
    left
    rfl
  | cons c rest ih =>
    intro w tp hP hprev hle
    obtain ⟨r, now⟩ := c
    have hnow : now ≤ t := hle (r, now) (List.mem_cons_self _ _)
    have hrest : ∀ c ∈ rest, c.2 ≤ t := fun c hc => hle c (List.mem_cons_of_mem _ hc)
    simp only [capRun, List.count_cons]
    by_cases hr : r = type
    · subst hr
      rw [cap_spec w r now P tp hP hprev]
      by_cases hc : now - tp > P
      · rw [if_pos hc]
        have hprev1 : (w.timePrev.set r (tp + P))[r]? = some (tp + P) :=
          List.getElem?_set_self (List.getElem?_eq_some.mp hprev).1
        have ih1 := ih { w with timePrev := w.timePrev.set r (tp + P) } (tp + P) hP hprev1 hrest
        right
        simp only [beq_self_eq_true, if_true, Nat.cast_add, Nat.cast_one]
        rcases ih1 with h0 | h0
        · rw [h0]
          simp only [Nat.cast_zero]
          linarith
        · linarith
      · rw [if_neg hc]
        have ih1 := ih w tp hP hprev hrest
        have hne : ((r, false) == (r, true)) = false := by simp
        simpa [hne] using ih1
    · have hprev1 : (cap w r now).2.timePrev[type]? = some tp := by
        unfold cap
        split_ifs
        · show (w.timePrev.set r _)[type]? = some tp
          rw [List.getElem?_set_ne hr]; exact hprev
        · exact hprev
      have hP1 : (cap w r now).2.timePeriod[type]? = some P := by
        unfold cap
        split_ifs
        · exact hP
        · exact hP
      have ih1 := ih (cap w r now).2 tp hP1 hprev1 hrest
      have hne : ((r, (cap w r now).1) == (type, true)) = false := by
        simp [hr]
      simpa [hne] using ih1

/-- C8: after `timer()` at clock reading `t0`, for a rate with positive period
`P` and any sequence of `cap` calls at clock readings of at most `t` (with
`t0 ≤ t`), the number `k` of calls for that rate that return true satisfies
`(k - 1) * P < t - t0`; a call that returns true advances `timePrev[type]` by
`P`, a call that returns false changes nothing, and no call changes another
rate's `timePrev` or any period. -/
theorem cap_rate_bound (cfg : Config) (w : Window F) (t0 t P : Int) (type : Nat)
    (hwf : w.wf cfg) (htype : type < cfg.WINDOW_RATES) (hP : w.timePeriod[type]? = some P)
    (hpos : 0 < P) (ht : t0 ≤ t) (calls : List (Nat × Int))
    (hcalls : ∀ c ∈ calls, c.1 < cfg.WINDOW_RATES ∧ c.2 ≤ t) :
    (timer cfg w t0).timePrev[type]? = some (t0 - P) ∧
    (((capRun (timer cfg w t0) calls).2.count (type, true) : Int) - 1) * P < t - t0 ∧
    (∀ (w1 : Window F) (now old : Int),
      w1.timePeriod[type]? = some P → w1.timePrev[type]? = some old →
      ((cap w1 type now).1 = true → (cap w1 type now).2.timePrev[type]? = some (old + P)) ∧
      ((cap w1 type now).1 = false → (cap w1 type now).2.timePrev = w1.timePrev) ∧
      (∀ j : Nat, j ≠ type → (cap w1 type now).2.timePrev[j]? = w1.timePrev[j]?) ∧
      (cap w1 type now).2.timePeriod = w1.timePeriod) := by
  have hspec := timerLoop_spec cfg.WINDOW_RATES { w with timeStart := t0 }
  have hlen : type < w.timePrev.length := by rw [hwf.2.2.1]; exact htype
  have hprev : (timer cfg w t0).timePrev[type]? = some (t0 - P) := by
    have h4 := hspec.2.2.2 type htype hlen
    rw [getD_of_getElem? _ _ _ hP] at h4
    exact h4
  have hper : (timer cfg w t0).timePeriod[type]? = some P := by
    show (timerLoop _ _).timePeriod[type]? = some P
    rw [hspec.1]; exact hP
  refine ⟨hprev, ?_, ?_⟩
  · have hb := capRun_bound type P t calls (timer cfg w t0) (t0 - P) hper hprev
      (fun c hc => (hcalls c hc).2)
    rcases hb with h0 | h0
    · rw [h0]
      simp only [Nat.cast_zero]
      linarith
    · linarith
  · intro w1 now old hP1 hold
    rw [cap_spec w1 type now P old hP1 hold]
    by_cases hc : now - old > P
    · rw [if_pos hc]
      refine ⟨fun _ => ?_, fun hf => (by cases hf), fun j hj => ?_, rfl⟩
      · exact List.getElem?_set_self (List.getElem?_eq_some.mp hold).1
      · exact List.getElem?_set_ne (Ne.symm hj)
    · rw [if_neg hc]
      exact ⟨fun hf => (by cases hf), fun _ => rfl, fun _ _ => rfl, rfl⟩

/-! ## The claims evaluated on the example window -/

set_option maxRecDepth 100000 in
theorem exampleWindow_wf : exampleWindow.wf exampleConfig := by
  unfold Window.wf
  decide

set_option maxRecDepth 100000 in
theorem examplePressed_load : examplePressed.load (.key 225) = some 1 := by
  decide

set_option maxRecDepth 100000 in
/-- C1 on the example: the call sequence runs to the end and leaves every cell
in {-1, 0, 1}. -/
theorem triState_invariant_witness :
    ∃ (s2 : Sys Rat) (log : List (Op × Out)),
      run exampleConfig FloatOps.exact exampleSys exampleOps = some (s2, log) ∧
      s2.win.triState := by
  have hsome : (run exampleConfig FloatOps.exact exampleSys exampleOps).isSome = true := by
    decide
  obtain ⟨⟨s2, log⟩, h⟩ := Option.isSome_iff_exists.mp hsome
  exact ⟨s2, log, h,
    (triState_invariant exampleConfig FloatOps.exact).2.2.1 exampleMemory (.value 0) 640 480
      16666 8333 exampleBind s2 exampleOps log (by decide) (by decide) h⟩

set_option maxRecDepth 100000 in
/-- C2 on the example: the key `a` goes down in the fresh window, cell 225
becomes 1 and the loop continues. -/
theorem handleEvent_in_range_witness :
    exampleWindow.wf exampleConfig ∧
    (handleEvent exampleConfig FloatOps.exact exampleWindow (.KEYDOWN 97)).2 = none ∧
    (handleEvent exampleConfig FloatOps.exact exampleWindow (.KEYDOWN 97)).1.keyMap[225]?
      = some 1 := by
  obtain ⟨old, hold, hcont, hnew, _⟩ :=
    (handleEvent_in_range exampleConfig FloatOps.exact exampleWindow exampleWindow_wf).1 97
      (by decide) (by decide)
  have hk : keyIndex exampleConfig 97 = 225 := by decide
  rw [hk] at hold hnew
  have h0 : exampleWindow.keyMap[225]? = some 0 := by decide
  have hold0 : old = 0 := by
    rw [h0] at hold
    exact (Option.some.inj hold).symm
  rw [hold0] at hnew
  exact ⟨exampleWindow_wf, hcont, hnew⟩

/-- C3 on the example: button 9 is outside the eight mouse cells. -/
theorem handleEvent_out_of_range_witness :
    ReportsError exampleConfig FloatOps.exact exampleWindow (.MOUSEBUTTONDOWN 9)
      .ErrorMouseDown 9 "Input error: MOUSEDOWN code out of bounds: " :=
  ((handleEvent_out_of_range exampleConfig FloatOps.exact exampleWindow).1 9 (by decide)).1

set_option maxRecDepth 100000 in
/-- C4 on the example: with the binding active and `a` freshly pressed,
`getPress(1)` returns 1. -/
theorem getPress_gated_witness :
    ∃ (r : Int) (w1 : Window Rat),
      getPress (exampleBind.setActive true) examplePressed 1 = some (r, w1) ∧ r = 1 := by
  obtain ⟨r, w1, hget, hiff, _⟩ :=
    (getPress_gated exampleConfig FloatOps.exact).1 (exampleBind.setActive true) examplePressed
      1 (.key 225) 1 (by decide) examplePressed_load
  exact ⟨r, w1, hget, hiff.mpr ⟨rfl, rfl⟩⟩

set_option maxRecDepth 100000 in
/-- C5 on the example: with the binding active and `a` freshly pressed,
`getHold(1)` returns 1 and the window is unchanged. -/
theorem getHold_gated_witness :
    getHold (exampleBind.setActive true) examplePressed 1 = some (1, examplePressed) := by
  have h := getHold_gated (exampleBind.setActive true) examplePressed 1 (.key 225) 1
    (by decide) examplePressed_load (Or.inr (Or.inr rfl))
  rw [h]
  rfl

set_option maxHeartbeats 2000000 in
set_option maxRecDepth 100000 in
/-- C6 on the example: after `a` goes down, a sequence of queries with a
repeated down event and a flush reports the press at most once. -/
theorem press_reported_once_witness :
    ∃ (s2 : Sys Rat) (log : List (Op × Out)),
      run exampleConfig FloatOps.exact exampleActive (.get [.KEYDOWN 97] :: exampleQueries)
        = some (s2, log) ∧
      log.countP (reported exampleActive.bind (.key 225)) ≤ 1 := by
  have hsome : (run exampleConfig FloatOps.exact exampleActive
      (.get [.KEYDOWN 97] :: exampleQueries)).isSome = true := by
    decide
  obtain ⟨⟨s2, log⟩, h⟩ := Option.isSome_iff_exists.mp hsome
  have hrel : ∀ op ∈ exampleQueries, ¬ op.releases exampleConfig (.key 225) := by
    simp [exampleQueries, Op.releases, Event.releases, keysym, keysymKey, wrap32]
  have h0 : exampleActive.win.load (.key 225) = some 0 := by
    decide
  have hg : keysym exampleConfig.WINDOW_KEYCODES 97 < exampleConfig.WINDOW_KEYCODES := by
    decide
  have hk : Handle.key 225 = .key (keysym exampleConfig.WINDOW_KEYCODES 97).toNat := by
    decide
  have hp : Event.presses exampleConfig (.key 225) (.KEYDOWN 97) := ⟨hg, hk⟩
  exact ⟨s2, log, h,
    ((press_reported_once exampleConfig FloatOps.exact).1 exampleActive s2 (.KEYDOWN 97)
      (.key 225) exampleQueries log h0 hp hrel h).2⟩

/-- C7 on the example: with 256 key cells, space and keypad 1 are both
accepted and share cell 160. -/
theorem keysym_collision_witness :
    keysym 256 32 < 256 ∧ keysym 256 0x40000059 < 256 ∧
    keysym 256 32 = keysym 256 0x40000059 := by
  have h := keysym_collision (F := Rat) exampleConfig (by decide)
  exact ⟨h.2.2.2.1, h.2.2.2.2.1, h.2.2.2.2.2.1.trans h.2.2.2.2.2.2.1.symm⟩

set_option maxRecDepth 100000 in
/-- C8 on the example: the timer starts at 1000, rate 0 has period 16666, and
of the calls made up to clock 60000 four return true for rate 0. -/
theorem cap_rate_bound_witness :
    (capRun (timer exampleConfig exampleWindow 1000) exampleCalls).2.count (0, true) = 4 ∧
    (((capRun (timer exampleConfig exampleWindow 1000) exampleCalls).2.count (0, true) : Int) - 1)
      * 16666 < 60000 - 1000 :=
  ⟨by decide,
   (cap_rate_bound exampleConfig exampleWindow 1000 60000 16666 0 exampleWindow_wf (by decide)
     (by decide) (by decide) (by decide) exampleCalls (by decide)).2.1⟩

/-- C9 on the example: the key `a` is stored at an index between 128 and 256. -/
theorem keysym_index_safety_witness :
    128 ≤ keyIndex exampleConfig 97 ∧ keyIndex exampleConfig 97 < exampleConfig.WINDOW_KEYCODES :=
  (((keysym_index_safety (F := Rat) exampleConfig).1 97 (by decide)).2.2.2 (by decide)).2.2

set_option maxRecDepth 100000 in
/-- C10 on the example: the press of `a` is queried while the binding is
inactive; after activation `getPress(1)` returns 0 and `getHold(1)` returns 1. -/
theorem inactive_press_consumed_witness :
    ∃ w1 : Window Rat, getPress exampleBind examplePressed 1 = some (0, w1) ∧
      w1.load (.key 225) = some (-1) ∧
      getPress (exampleBind.setActive true) w1 1 = some (0, w1) ∧
      getHold (exampleBind.setActive true) w1 1 = some (1, w1) := by
  obtain ⟨w1, hget, hload, hrest⟩ :=
    inactive_press_consumed exampleConfig FloatOps.exact exampleBind examplePressed 1 (.key 225)
      (by decide) examplePressed_load (by decide)
  have h2 := hrest [] { win := w1, bind := exampleBind } []
    (fun op hop => by cases hop) rfl
  exact ⟨w1, hget, hload, h2.1, h2.2⟩

end DesktopWindow
